import Mathlib

/-!
Verification development for the aerodrome position-dashboard repository.

The definitions below are a shallow embedding of the TypeScript sources.
The authoritative variant of the positions endpoint is the final draft
(`src/unnamed/part_002`): a Next.js route handler that queries a GraphQL
indexer with several candidate query shapes, maps staked positions back to
their depositor wallets, and emits a uniform row shape.  External services
(the GraphQL indexer and the JSON-RPC node) are modelled as an oracle: a
record of response functions; the handler is a pure function of the
environment, the oracle and the request, with uncaught JavaScript
exceptions modelled in the `Except String` monad.
-/

/- ========= Generic JS-flavoured helpers ========= -/

/-- JS nullish coalescing `a ?? b` on option values. -/
def jsCoalesce {α : Type} (a b : Option α) : Option α :=
  match a with
  | some x => some x
  | none => b

/-- Insertion into a JS `Set` modelled as an insertion-ordered duplicate-free list. -/
def setAdd (s : List String) (x : String) : List String :=
  if s.contains x then s else s ++ [x]

/-- JS `Map<string,string>` modelled as an insertion-ordered association list
with unique keys. -/
abbrev DMap := List (String × String)

/-- `Map.get`: first binding of the key. -/
def dmLookup : DMap → String → Option String
  | [], _ => none
  | (k', v) :: rest, k => if k' == k then some v else dmLookup rest k

/-- `Map.has`. -/
def dmHas (m : DMap) (k : String) : Bool := (dmLookup m k).isSome

/-- `Map.set`: update in place when the key is present (JS keeps the original
insertion position), append otherwise. -/
def dmSet : DMap → String → String → DMap
  | [], k, v => [(k, v)]
  | (k', v') :: rest, k, v =>
    if k' == k then (k', v) :: rest else (k', v') :: dmSet rest k v

/- ========= Kernel-reducible equivalents of JS string primitives =========
The JS operations `toLowerCase`, `trim`, `split(",")`, `Number(...)` and the
`0x` prefix test are modelled structurally over the character list so that
concrete runs evaluate inside the kernel; they agree with the corresponding
JS string semantics on the inputs the routes feed them. -/

/-- JS `s.toLowerCase()` (ASCII, as `Char.toLower`). -/
def jsToLower (s : String) : String := (s.data.map Char.toLower).asString

/-- The whitespace JS `trim` strips (the subset relevant here). -/
def isJsSpace (c : Char) : Bool := c = ' ' ∨ c = '\t' ∨ c = '\n' ∨ c = '\r'

/-- JS `s.trim()`. -/
def jsTrim (s : String) : String :=
  ((s.data.dropWhile isJsSpace).reverse.dropWhile isJsSpace).reverse.asString

/-- Worker of `jsSplitComma`. -/
def splitCommaAux : List Char → List Char → List String
  | [], acc => [acc.reverse.asString]
  | c :: rest, acc =>
    if c = ',' then acc.reverse.asString :: splitCommaAux rest []
    else splitCommaAux rest (c :: acc)

/-- JS `s.split(",")`. -/
def jsSplitComma (s : String) : List String := splitCommaAux s.data []

/-- JS `s.startsWith("0x")`. -/
def startsWithHexMark (s : String) : Bool :=
  match s.data with
  | '0' :: 'x' :: _ => true
  | _ => false

/-- Value of one decimal digit. -/
def decDigitVal (c : Char) : Option Nat :=
  if '0' ≤ c ∧ c ≤ '9' then some (c.toNat - '0'.toNat) else none

/-- Parse a non-empty all-digit string. -/
def parseDecNat (s : String) : Option Nat :=
  if s = "" then none
  else s.data.foldl (fun acc c =>
    match acc, decDigitVal c with
    | some n, some d => some (n * 10 + d)
    | _, _ => none) (some 0)

/-- JS `Number(v)` with the `isFinite` guard, on the integer numerals the
route's tuning parameters are expected to carry. -/
def parseDecInt (s : String) : Option Int :=
  match s.data with
  | '-' :: rest =>
    if rest.isEmpty then none
    else (parseDecNat rest.asString).map (fun n => -(n : Int))
  | _ => (parseDecNat s).map Int.ofNat

/- ========= Hex / numeric string helpers (mirroring the route's RPC utils) ========= -/

/-- Value of one hexadecimal digit. -/
def hexDigitVal (c : Char) : Option Nat :=
  if '0' ≤ c ∧ c ≤ '9' then some (c.toNat - '0'.toNat)
  else if 'a' ≤ c ∧ c ≤ 'f' then some (c.toNat - 'a'.toNat + 10)
  else if 'A' ≤ c ∧ c ≤ 'F' then some (c.toNat - 'A'.toNat + 10)
  else none

/-- Parse a (non-empty) string of hex digits; `none` on any invalid digit. -/
def parseHexNat (s : String) : Option Nat :=
  if s = "" then none
  else s.data.foldl (fun acc c =>
    match acc, hexDigitVal c with
    | some n, some d => some (n * 16 + d)
    | _, _ => none) (some 0)

/-- JS `BigInt(s)` restricted to the shapes the routes feed it: a `0x`-prefixed
hex string or a plain decimal digit string ("" is 0).  Errors model the
`SyntaxError` that JS `BigInt` throws on malformed input. -/
def jsBigIntNat (s : String) : Except String Nat :=
  if s = "" then Except.ok 0
  else if startsWithHexMark s then
    match parseHexNat (s.drop 2) with
    | some n => Except.ok n
    | none => Except.error "Cannot convert string to a BigInt"
  else
    match parseDecNat s with
    | some n => Except.ok n
    | none => Except.error "Cannot convert string to a BigInt"

/-- Lowercase hex digits of a natural number (JS `n.toString(16)`). -/
def natToHex (n : Nat) : String :=
  Nat.toDigits 16 n |>.asString

/-- JS `s.padStart(n, "0")`. -/
def padStartZeros (s : String) (n : Nat) : String :=
  (List.replicate (n - s.length) '0').asString ++ s

/-- JS `s.replace(/^0x/, "")`. -/
def dropHexMark (s : String) : String :=
  if startsWithHexMark s then s.drop 2 else s

/-- JS `s.slice(-n)`: the last `n` characters (the whole string when shorter). -/
def takeRight (s : String) (n : Nat) : String :=
  s.drop (s.length - n)

/-- `toHex` from the route: `"0x" + n.toString(16)`. -/
def toHex (n : Int) : String :=
  if n < 0 then "0x-" ++ natToHex (-n).toNat else "0x" ++ natToHex n.toNat

/-- `toTopicAddress` from the route: zero-pad an address to a 32-byte topic. -/
def toTopicAddress (addr : String) : String :=
  "0x" ++ (List.replicate 24 '0').asString ++ dropHexMark (jsToLower addr)

/-- `tokenIdToTopic` from the route: `BigInt(id)` rendered as a 64-digit hex
topic.  `BigInt` may throw on a malformed id, hence `Except`. -/
def tokenIdToTopicE (id : String) : Except String String := do
  let n ← jsBigIntNat id
  pure ("0x" ++ padStartZeros (natToHex n) 64)

/-- `wordAt` from the route: the i-th 32-byte word of an ABI return blob. -/
def wordAt (hex : String) (i : Nat) : String :=
  "0x" ++ ((hex.drop (2 + i * 64)).take 64)

/-- `hexAddr` from the route: last 20 bytes of a return blob as an address. -/
def hexAddr (h : String) : Option String :=
  if h = "" ∨ h = "0x" then none else some (jsToLower ("0x" ++ takeRight h 40))

/-- `enc32` from the route: strip `0x`, lowercase, left-pad to 64 chars. -/
def enc32 (x : String) : String :=
  padStartZeros (dropHexMark (jsToLower x)) 64

/-- Strip trailing `'0'` characters (JS `frac.replace(/0+$/, "")`). -/
def dropTrailingZeros (s : String) : String :=
  (s.data.reverse.dropWhile (· == '0')).reverse.asString

/-- `formatUnits` from the route: render `x` with `dec` decimal places,
trimming trailing zeros of the fractional part. -/
def formatUnits (x : Nat) (dec : Nat) : String :=
  let s := toString x
  if dec = 0 then s
  else
    let pad := dec - min dec s.length
    let whole := if s.length > dec then s.take (s.length - dec) else "0"
    let frac := (List.replicate pad '0').asString ++ s.drop (s.length - min dec s.length)
    if frac = (List.replicate dec '0').asString then whole
    else
      let f := dropTrailingZeros frac
      whole ++ "." ++ (if f = "" then "0" else f)

/- ========= GraphQL response shapes ========= -/

/-- Result of the guarded GraphQL helper `q` / `tryQuery`: transport-level
success carrying the (already JSON-decoded) data, or an error message. -/
inductive Try (α : Type) where
  | ok (data : α)
  | err (msg : String)
deriving DecidableEq

/-- A GraphQL `owner`-typed field: either an object with an optional `id`, or a
plain string.  An object whose `id` is null is kept as the raw object by the
source; where the source later stringifies it we use the JS rendering
"[object Object]". -/
inductive OwnerField where
  | obj (id : Option String)
  | str (s : String)
deriving DecidableEq

/-- `(p?.owner?.id !== undefined && p?.owner?.id !== null) ? p.owner.id : p?.owner`
followed by use as a string. -/
def ownerRawOf : Option OwnerField → Option String
  | some (OwnerField.obj (some i)) => some i
  | some (OwnerField.obj none) => some "[object Object]"
  | some (OwnerField.str s) => some s
  | none => none

/-- `x?.id`: only an object with a non-null id yields a value. -/
def idOf : Option OwnerField → Option String
  | some (OwnerField.obj (some i)) => some i
  | _ => none

structure TokenInfo where
  id : String := ""
  symbol : String := ""
  decimals : Option Nat := none
deriving DecidableEq

structure Pool where
  id : Option String := none
  tick : Option Int := none
  currentTick : Option Int := none
  token0 : Option TokenInfo := none
  token1 : Option TokenInfo := none
deriving DecidableEq

/-- One `positions` row as returned by the indexer (either field-alias
variant; absent fields are `none`). -/
structure Position where
  id : String := ""
  owner : Option OwnerField := none
  tickLower : Option Int := none
  lowerTick : Option Int := none
  tickUpper : Option Int := none
  upperTick : Option Int := none
  depositedToken0 : Option String := none
  depositedToken1 : Option String := none
  collectedFeesToken0 : Option String := none
  collectedFeesToken1 : Option String := none
  pool : Option Pool := none
deriving DecidableEq

/- ========= normalizeTicks ========= -/

/-- `p.tickLower ?? p.lowerTick ?? null`. -/
def effTickLower (p : Position) : Option Int := jsCoalesce p.tickLower p.lowerTick

/-- `p.tickUpper ?? p.upperTick ?? null`. -/
def effTickUpper (p : Position) : Option Int := jsCoalesce p.tickUpper p.upperTick

/-- `p.pool?.tick ?? p.pool?.currentTick ?? null`. -/
def effCurrentTick (p : Position) : Option Int :=
  jsCoalesce (p.pool.bind Pool.tick) (p.pool.bind Pool.currentTick)

structure RangeInfo where
  tickLower : Option Int
  tickUpper : Option Int
  currentTick : Option Int
  status : String
deriving DecidableEq

/-- `normalizeTicks` from the route. -/
def normalizeTicks (p : Position) : RangeInfo :=
  match effTickLower p, effTickUpper p, effCurrentTick p with
  | some tln, some tun, some ctn =>
    { tickLower := some tln, tickUpper := some tun, currentTick := some ctn,
      status := if ctn ≥ tln ∧ ctn ≤ tun then "IN" else "OUT" }
  | tl, tu, ct =>
    { tickLower := tl, tickUpper := tu, currentTick := ct, status := "-" }

/- ========= Price proxy endpoint (app/api/prices/route.ts) ========= -/

structure PricesRequest where
  ids : Option String := none
deriving DecidableEq

/-- Outcome of the upstream `fetch` to the pricing API: network exception
(`threw`) or a response with its `ok` flag, HTTP status and JSON body
(kept opaque as a string). -/
inductive FetchOutcome where
  | threw (e : String)
  | resp (ok : Bool) (status : Nat) (json : String)
deriving DecidableEq

/-- Response bodies the prices route can build. -/
inductive PricesBody where
  | idsRequired
  | upstreamError (status : Nat)
  | networkError
  | passthrough (json : String)
deriving DecidableEq

structure PricesResponse where
  status : Nat
  body : PricesBody
deriving DecidableEq

/-- The prices route handler `GET`: requires `ids`, forwards to the pricing
API and returns its JSON verbatim, or a structured error. -/
def pricesGET (req : PricesRequest) (fetchR : FetchOutcome) : PricesResponse :=
  match req.ids with
  | none => { status := 400, body := PricesBody.idsRequired }
  | some s =>
    if s = "" then { status := 400, body := PricesBody.idsRequired }
    else
      match fetchR with
      | FetchOutcome.threw _ => { status := 500, body := PricesBody.networkError }
      | FetchOutcome.resp ok st j =>
        if ok then { status := 200, body := PricesBody.passthrough j }
        else { status := 502, body := PricesBody.upstreamError st }

/- ========= Claim C2 ========= -/

/-- C2: the computed range status is "IN" exactly when all of tickLower,
tickUpper and the pool's current tick are available and
tickLower ≤ currentTick ≤ tickUpper; it is "OUT" exactly when all three are
available and the current tick lies outside the closed interval; and it is
"-" exactly when any of the three values is unavailable. -/
theorem normalizeTicks_range_status (p : Position) :
    ((normalizeTicks p).status = "IN" ↔
      ∃ tl tu ct, effTickLower p = some tl ∧ effTickUpper p = some tu ∧
        effCurrentTick p = some ct ∧ tl ≤ ct ∧ ct ≤ tu)
    ∧ ((normalizeTicks p).status = "OUT" ↔
      ∃ tl tu ct, effTickLower p = some tl ∧ effTickUpper p = some tu ∧
        effCurrentTick p = some ct ∧ ¬(tl ≤ ct ∧ ct ≤ tu))
    ∧ ((normalizeTicks p).status = "-" ↔
      (effTickLower p = none ∨ effTickUpper p = none ∨ effCurrentTick p = none)) := by
  rcases htl : effTickLower p with _ | tl <;>
    rcases htu : effTickUpper p with _ | tu <;>
    rcases hct : effCurrentTick p with _ | ct
  case some.some.some =>
    have hst : (normalizeTicks p).status = if ct ≥ tl ∧ ct ≤ tu then "IN" else "OUT" := by
      simp [normalizeTicks, htl, htu, hct]
    by_cases hin : ct ≥ tl ∧ ct ≤ tu
    · rw [if_pos hin] at hst
      refine ⟨iff_of_true hst ⟨tl, tu, ct, rfl, rfl, rfl, hin.1, hin.2⟩,
        iff_of_false (by rw [hst]; decide) ?_, iff_of_false (by rw [hst]; decide) ?_⟩
      · rintro ⟨tl', tu', ct', h1, h2, h3, hout⟩
        cases h1; cases h2; cases h3
        exact hout ⟨hin.1, hin.2⟩
      · rintro (h | h | h) <;> exact Option.noConfusion h
    · rw [if_neg hin] at hst
      refine ⟨iff_of_false (by rw [hst]; decide) ?_,
        iff_of_true hst ⟨tl, tu, ct, rfl, rfl, rfl, fun hc => hin ⟨hc.1, hc.2⟩⟩,
        iff_of_false (by rw [hst]; decide) ?_⟩
      · rintro ⟨tl', tu', ct', h1, h2, h3, hle1, hle2⟩
        cases h1; cases h2; cases h3
        exact hin ⟨hle1, hle2⟩
      · rintro (h | h | h) <;> exact Option.noConfusion h
  all_goals
    have hst : (normalizeTicks p).status = "-" := by simp [normalizeTicks, htl, htu, hct]
    refine ⟨iff_of_false (by rw [hst]; decide) ?_, iff_of_false (by rw [hst]; decide) ?_,
      iff_of_true hst ?_⟩
    · rintro ⟨tl', tu', ct', h1, h2, h3, h4, h5⟩
      first
      | exact Option.noConfusion h1
      | exact Option.noConfusion h2
      | exact Option.noConfusion h3
    · rintro ⟨tl', tu', ct', h1, h2, h3, h4⟩
      first
      | exact Option.noConfusion h1
      | exact Option.noConfusion h2
      | exact Option.noConfusion h3
    · first
      | exact Or.inl rfl
      | exact Or.inr (Or.inl rfl)
      | exact Or.inr (Or.inr rfl)

/- ========= Claim C8 ========= -/

/-- C8: on the price proxy, a missing `ids` parameter yields HTTP 400 with the
"ids required" error body; with `ids` present, an upstream non-success response
yields a structured error with a non-200 status whose body carries the upstream
HTTP status; an upstream success is passed through verbatim. -/
theorem pricesGET_spec (req : PricesRequest) (fetchR : FetchOutcome) :
    (req.ids = none →
      pricesGET req fetchR = { status := 400, body := PricesBody.idsRequired })
    ∧ (∀ s st j, req.ids = some s → s ≠ "" → fetchR = FetchOutcome.resp false st j →
      pricesGET req fetchR = { status := 502, body := PricesBody.upstreamError st } ∧
        (502 : Nat) ≠ 200)
    ∧ (∀ s st j, req.ids = some s → s ≠ "" → fetchR = FetchOutcome.resp true st j →
      (pricesGET req fetchR).body = PricesBody.passthrough j) := by
  refine ⟨?_, ?_, ?_⟩
  · intro h
    simp [pricesGET, h]
  · intro s st j hs hne hf
    subst hf
    simp [pricesGET, hs, hne]
  · intro s st j hs hne hf
    subst hf
    simp [pricesGET, hs, hne]

/-- Concrete instantiation of the prices-route theorem: the three branches at
explicit inputs. -/
theorem pricesGET_spec_witness :
    pricesGET { ids := none } (FetchOutcome.resp true 200 "json")
      = { status := 400, body := PricesBody.idsRequired }
    ∧ pricesGET { ids := some "aero" } (FetchOutcome.resp false 429 "body")
      = { status := 502, body := PricesBody.upstreamError 429 }
    ∧ (pricesGET { ids := some "aero" } (FetchOutcome.resp true 200 "json")).body
      = PricesBody.passthrough "json" := by
  refine ⟨?_, ?_, ?_⟩
  · exact (pricesGET_spec { ids := none } (FetchOutcome.resp true 200 "json")).1 rfl
  · exact ((pricesGET_spec { ids := some "aero" } (FetchOutcome.resp false 429 "body")).2.1
      "aero" 429 "body" rfl (by decide) rfl).1
  · exact (pricesGET_spec { ids := some "aero" } (FetchOutcome.resp true 200 "json")).2.2
      "aero" 200 "json" rfl (by decide) rfl

/- ========= Positions endpoint: environment, request and oracle ========= -/

/-- The environment variables the route reads at module scope (empty string
means absent, matching the `|| ""` defaults in the source). -/
structure Env where
  aeroSlipstreamSubgraph : String := ""
  slipstreamStakers : String := ""
  baseRpcUrl : String := ""
  slipstreamNfpm : String := ""
  rpcStartBlock : String := ""
deriving DecidableEq

/-- `STAKERS_FROM_ENV`: split on commas, trim, lowercase, drop empties. -/
def stakersFromEnv (env : Env) : List String :=
  ((jsSplitComma env.slipstreamStakers).map (fun s => jsToLower (jsTrim s))).filter (· ≠ "")

/-- Effective NFPM address: env override or the hard-coded default, lowercased. -/
def nfpmOf (env : Env) : String :=
  (if env.slipstreamNfpm = "" then "0x827922686190790b37229fd06084350E74485b72"
   else env.slipstreamNfpm) |> jsToLower

/-- The query parameters of one request to the positions endpoint. -/
structure Request where
  addresses : List String := []
  tokenIds : List String := []
  startBlock : Option String := none
  window : Option String := none
  maxLookback : Option String := none
  assumeParam : Option String := none
  assumeOwnerParam : Option String := none
deriving DecidableEq

/-- `addresses[]` lowercased with falsy (empty) entries dropped. -/
def addrsOf (req : Request) : List String :=
  (req.addresses.map jsToLower).filter (· ≠ "")

/-- `tokenIds[]` trimmed with falsy (empty) entries dropped. -/
def forcedIdsOf (req : Request) : List String :=
  (req.tokenIds.map jsTrim).filter (· ≠ "")

/-- `parseBlockParam`: null/empty is none, `0x...` is parsed as hex, otherwise
an integer numeral (JS `Number` with a finiteness check; non-numeric gives
none). -/
def parseBlockParam (v : Option String) : Option Int :=
  match v with
  | none => none
  | some s =>
    if s = "" then none
    else if startsWithHexMark s then (parseHexNat (s.drop 2)).map Int.ofNat
    else parseDecInt s

/-- Data object of one staker-discovery candidate response; each candidate
query answers under its own field name, absent fields are null. -/
structure StakersData where
  clGauges : Option (List (Option String)) := none
  gauges : Option (List (Option String)) := none
  positionStakers : Option (List (Option String)) := none
  nonfungiblePositionStakers : Option (List (Option String)) := none
deriving DecidableEq

/-- One row of a stake-mapping candidate response. -/
structure StakeRow where
  tokenId : Option String := none
  id : Option String := none
  user : Option OwnerField := none
  owner : Option OwnerField := none
  account : Option OwnerField := none
deriving DecidableEq

/-- Data object of one stake-mapping candidate response. -/
structure StakeData where
  stakedPositions : Option (List StakeRow) := none
  positionStakings : Option (List StakeRow) := none
  stakes : Option (List StakeRow) := none
  stakedNonFungiblePositions : Option (List StakeRow) := none
deriving DecidableEq

/-- One row of a transfer-mapping candidate response (`from` rendered as
`fromAddr`). -/
structure TransferRow where
  tokenId : Option String := none
  fromAddr : Option OwnerField := none
deriving DecidableEq

/-- Data object of one transfer-mapping candidate response. -/
structure TransferData where
  positionTransfers : Option (List TransferRow) := none
  nonfungiblePositionTransfers : Option (List TransferRow) := none
  transfers : Option (List TransferRow) := none
  transferEvents : Option (List TransferRow) := none
deriving DecidableEq

/-- Data object of a positions query (`data.positions ?? []`). -/
structure PosData where
  positions : Option (List Position) := none
deriving DecidableEq

/-- One `eth_getLogs` entry (only the topics are consumed by the routes). -/
structure LogEntry where
  topics : List String := []
deriving DecidableEq

/-- The filter object the route passes to `eth_getLogs`. -/
structure LogFilter where
  address : String
  topics : List (Option String)
  fromBlock : String
  toBlock : String
deriving DecidableEq

/-- The external world of one request: responses of the GraphQL indexer (the
candidate lists are answered positionally, in the fixed candidate order) and
of the JSON-RPC node.  The handler is a pure function of this record. -/
structure Oracle where
  posByOwnerV1 : List String → Try PosData
  posByOwnerV2 : List String → Try PosData
  posByIds : List String → Try PosData
  stakersResps : List (Try StakersData)
  stakedResps : List (Try StakeData)
  transferResps : List (Try TransferData)
  blockNumber : Except String String
  getLogs : LogFilter → Except String (List LogEntry)
  ethCall : String → String → Except String String

/-- The `rpc` helper throws when `BASE_RPC_URL` is unset, otherwise performs
the call. -/
def rpcCall {α : Type} (env : Env) (r : Except String α) : Except String α :=
  if env.baseRpcUrl = "" then Except.error "BASE_RPC_URL missing" else r

/- ========= Staker discovery ========= -/

/-- Field fallback of `discoverStakers`: rows of the first non-null entity
field of a candidate response. -/
def gaugeRowsOf (d : StakersData) : List (Option String) :=
  (jsCoalesce (jsCoalesce (jsCoalesce d.clGauges d.gauges) d.positionStakers)
    d.nonfungiblePositionStakers).getD []

/-- Inner row loop of `discoverStakers`: lowercase each id, skip falsy ones,
add to the set. -/
def addGaugeIds (set : List String) (rows : List (Option String)) : List String :=
  rows.foldl (fun acc g =>
    let id := jsToLower (g.getD "")
    if id ≠ "" then setAdd acc id else acc) set

/-- Candidate loop of `discoverStakers`: failed candidates are skipped; after a
transport-level success the loop stops only when the accumulated set is
non-empty (`if (set.size) break`). -/
def dsGo (set : List String) : List (Try StakersData) → List String
  | [] => set
  | Try.err _ :: rest => dsGo set rest
  | Try.ok d :: rest =>
    let set' := addGaugeIds set (gaugeRowsOf d)
    if set'.isEmpty then dsGo set' rest else set'

/-- `discoverStakers`: seed with the env-provided stakers, return them alone
when there is no client, otherwise run the candidate loop. -/
def discoverStakers (env : Env) (o : Oracle) : List String :=
  let seed := (stakersFromEnv env).foldl setAdd []
  if env.aeroSlipstreamSubgraph = "" then seed else dsGo seed o.stakersResps

/-- Instrumented variant of the candidate loop that also counts how many
candidate queries were issued (identical traversal to `dsGo`). -/
def dsGoCount (set : List String) : List (Try StakersData) → List String × Nat
  | [] => (set, 0)
  | Try.err _ :: rest =>
    let r := dsGoCount set rest
    (r.1, r.2 + 1)
  | Try.ok d :: rest =>
    let set' := addGaugeIds set (gaugeRowsOf d)
    if set'.isEmpty then
      let r := dsGoCount set' rest
      (r.1, r.2 + 1)
    else (set', 1)

/- ========= Windowed log scans ========= -/

/-- The ERC-721 `Transfer` event topic hash used by the route. -/
def erc721TransferTopic : String :=
  "0xddf252ad1be2c89b69c2b068fc378daa952ba7f163c4a11628f55a4df523b3ef"

/-- Inner log loop of `scanWalletToStaker`: decode `topics[3]` of each log as a
tokenId.  A malformed topic makes JS `BigInt` throw, aborting the rest of this
window's logs (the catch swallows it) while keeping the ids added so far. -/
def addLogTokenIds (found : List String) : List LogEntry → List String
  | [] => found
  | l :: ls =>
    match l.topics.get? 3 with
    | none => addLogTokenIds found ls
    | some t =>
      if t = "" then addLogTokenIds found ls
      else
        match jsBigIntNat t with
        | Except.ok n => addLogTokenIds (setAdd found (toString n)) ls
        | Except.error _ => found

/-- The `while` loop of `scanWalletToStaker`: walk backward from `e` in
`window`-sized blocks, swallowing failed `eth_getLogs` calls, stopping at the
start block / lookback budget / 500 collected ids.  The JS loop does not
terminate for a non-positive window, so the model guards on `0 < window`;
all theorems about the scan assume a positive window.  Returns the collected
ids together with the final `end` and `scanned` counters. -/
def scanLoop (env : Env) (o : Oracle) (wallet staker : String)
    (minStart window maxLookback : Int) (e scanned : Int) (found : List String) :
    List String × Int × Int :=
  if h : 0 < window ∧ minStart < e ∧ scanned < maxLookback then
    let start := max minStart (e - window)
    let filter : LogFilter :=
      { address := nfpmOf env,
        topics := [some erc721TransferTopic, some (toTopicAddress wallet),
                   some (toTopicAddress staker)],
        fromBlock := toHex start, toBlock := toHex e }
    let found' :=
      match rpcCall env (o.getLogs filter) with
      | Except.ok logs => addLogTokenIds found logs
      | Except.error _ => found
    let scanned' := scanned + window
    if 500 ≤ found'.length then (found', start, scanned')
    else scanLoop env o wallet staker minStart window maxLookback start scanned' found'
  else (found, e, scanned)
termination_by (maxLookback - scanned).toNat
decreasing_by
  omega

/-- `scanWalletToStaker`: fetch the chain head, then run the windowed loop
from it.  Failures of `eth_blockNumber` (or a malformed head) propagate as
exceptions. -/
def scanWalletToStaker (env : Env) (o : Oracle) (wallet staker : String)
    (startBlock : Option Int) (window maxLookback : Int) :
    Except String (List String) := do
  let headHex ← rpcCall env o.blockNumber
  let head ← jsBigIntNat headHex
  let minStart := startBlock.getD 0
  pure (scanLoop env o wallet staker minStart window maxLookback (Int.ofNat head) 0 []).1

/-- The `while` loop of `scanExactToken`: same windowing, but with the tokenId
as a fourth topic; returns `true` as soon as a window yields any log. -/
def scanExactLoop (env : Env) (o : Oracle) (wallet staker tidTopic : String)
    (minStart window maxLookback : Int) (e scanned : Int) : Bool :=
  if h : 0 < window ∧ minStart < e ∧ scanned < maxLookback then
    let start := max minStart (e - window)
    let filter : LogFilter :=
      { address := nfpmOf env,
        topics := [some erc721TransferTopic, some (toTopicAddress wallet),
                   some (toTopicAddress staker), some tidTopic],
        fromBlock := toHex start, toBlock := toHex e }
    match rpcCall env (o.getLogs filter) with
    | Except.ok logs =>
      if logs.length > 0 then true
      else scanExactLoop env o wallet staker tidTopic minStart window maxLookback start
        (scanned + window)
    | Except.error _ =>
      scanExactLoop env o wallet staker tidTopic minStart window maxLookback start
        (scanned + window)
  else false
termination_by (maxLookback - scanned).toNat
decreasing_by
  all_goals omega

/-- `scanExactToken`: head fetch plus the exact-topic windowed loop. -/
def scanExactToken (env : Env) (o : Oracle) (wallet staker tokenId : String)
    (startBlock : Option Int) (window maxLookback : Int) : Except String Bool := do
  let headHex ← rpcCall env o.blockNumber
  let head ← jsBigIntNat headHex
  let minStart := startBlock.getD 0
  let tidTopic ← tokenIdToTopicE tokenId
  pure (scanExactLoop env o wallet staker tidTopic minStart window maxLookback
    (Int.ofNat head) 0)

/- ========= Fees / emissions enrichment helpers ========= -/

def selPositions : String := "0x514ea4bf"
def selRewardToken : String := "0xf7c618c1"
def selDecimals : String := "0x313ce567"
def selEarned : String := "0x3e491d47"

/-- `nfpmPositions`: `eth_call` the position manager and decode
`tokensOwed0`/`tokensOwed1` at words 10 and 11. -/
def nfpmPositions (env : Env) (o : Oracle) (tokenId : String) :
    Except String (Nat × Nat) := do
  let topic ← tokenIdToTopicE tokenId
  let data := selPositions ++ topic.drop 2
  let out ← rpcCall env (o.ethCall (nfpmOf env) data)
  if out = "" ∨ out.length < 2 + 64 * 12 then
    Except.error "positions bad return"
  else do
    let owed0 ← jsBigIntNat (wordAt out 10)
    let owed1 ← jsBigIntNat (wordAt out 11)
    pure (owed0, owed1)

/-- Exception-throwing core of `gaugeRewardToken`. -/
def gaugeRewardTokenE (env : Env) (o : Oracle) (gauge : String) :
    Except String (Option String × Nat) := do
  let rt ← rpcCall env (o.ethCall gauge selRewardToken)
  match hexAddr rt with
  | none => pure (none, 18)
  | some addr => do
    let decHex ← rpcCall env (o.ethCall addr selDecimals)
    let dec ← jsBigIntNat decHex
    pure (some addr, dec)

/-- `gaugeRewardToken`: reward-token address and its decimals, with the
internal catch collapsing any failure to `(null, 18)`. -/
def gaugeRewardToken (env : Env) (o : Oracle) (gauge : String) :
    Option String × Nat :=
  match gaugeRewardTokenE env o gauge with
  | Except.ok r => r
  | Except.error _ => (none, 18)

/-- Exception-throwing core of `gaugeEarned`. -/
def gaugeEarnedE (env : Env) (o : Oracle) (gauge account tokenId : String) :
    Except String (Nat × Nat) := do
  let decimals := (gaugeRewardToken env o gauge).2
  let data := selEarned ++ enc32 account ++ enc32 tokenId
  let out ← rpcCall env (o.ethCall gauge data)
  let amt ← jsBigIntNat out
  pure (amt, decimals)

/-- `gaugeEarned`: currently earned emissions, with the internal catch
collapsing any failure to `(0, 18)`. -/
def gaugeEarned (env : Env) (o : Oracle) (gauge account tokenId : String) :
    Nat × Nat :=
  match gaugeEarnedE env o gauge account tokenId with
  | Except.ok r => r
  | Except.error _ => (0, 18)

/- ========= Row shape and response ========= -/

/-- One emitted item row.  `gauge` is the internal `__gauge` field of the
source; the source deletes it only when the enrichment loop runs. -/
structure Row where
  owner : Option String
  tokenId : String
  poolId : Option String
  token0 : Option TokenInfo
  token1 : Option TokenInfo
  depositedT0 : String
  depositedT1 : String
  feesT0 : String
  feesT1 : String
  emissions : Option String
  range : RangeInfo
  staked : Bool
  gauge : Option String
deriving DecidableEq

/-- The JSON response of the positions endpoint (`NextResponse.json` defaults
to HTTP 200; the top-level catch sets 200 explicitly). -/
structure ApiResponse where
  status : Nat
  items : List Row
  notes : List String
deriving DecidableEq

/- ========= Pipeline stages of the route handler ========= -/

/-- Step 1 / 3 shared shape: query positions by owner with the V1 query, fall
back to V2 on failure; on double failure produce the given note. -/
def positionsByOwner (o : Oracle) (owners : List String) (failNote : String → String) :
    List Position × List String :=
  match o.posByOwnerV1 owners with
  | Try.ok d => (d.positions.getD [], [])
  | Try.err _ =>
    match o.posByOwnerV2 owners with
    | Try.ok d => (d.positions.getD [], [])
    | Try.err e2 => ([], [failNote e2])

/-- Step 1: wallet-owned positions. -/
def walletStep (o : Oracle) (addrs : List String) : List Position × List String :=
  positionsByOwner o addrs (fun e => "Wallet positions failed: " ++ e)

/-- Step 2 notes about the staker set. -/
def stakerNotes (env : Env) (stakers : List String) : List String :=
  (if (stakersFromEnv env).length ≠ 0 then
    ["Merged " ++ toString (stakersFromEnv env).length ++ " staker(s) from env."]
   else [])
  ++ (if stakers.isEmpty then
    ["No stakers found in subgraph (set SLIPSTREAM_STAKERS=0xGaugeA,0xGaugeB)."]
   else [])

/-- Step 3: positions owned by the discovered stakers (skipped when none). -/
def gaugeStep (o : Oracle) (stakerList : List String) : List Position × List String :=
  if stakerList.isEmpty then ([], [])
  else positionsByOwner o stakerList (fun e => "Gauge-owned positions failed: " ++ e)

/-- Step 3b: rehydrate caller-forced tokenIds and inject those currently
gauge-owned into the gauge-position list. -/
def forcedStep (o : Oracle) (forcedIds stakerList : List String)
    (gaugePositions : List Position) : List Position × List String :=
  if forcedIds.isEmpty then (gaugePositions, [])
  else
    match o.posByIds forcedIds with
    | Try.ok d =>
      let extra := (d.positions.getD []).filter (fun p =>
        stakerList.contains (jsToLower ((ownerRawOf p.owner).getD "")))
      if extra.isEmpty then
        (gaugePositions, ["tokenIds[] provided, but none are currently gauge-owned."])
      else
        (gaugePositions ++ extra,
         ["Injected " ++ toString extra.length ++ " position(s) from tokenIds[]."])
    | Try.err e => (gaugePositions, ["tokenIds[] rehydrate failed: " ++ e])

/-- Field fallback of the stake-mapping rows. -/
def stakeRowsOf (d : StakeData) : List StakeRow :=
  (jsCoalesce (jsCoalesce (jsCoalesce d.stakedPositions d.positionStakings) d.stakes)
    d.stakedNonFungiblePositions).getD []

/-- `row.user?.id ?? row.owner?.id ?? row.account?.id ?? row.user ?? row.owner ?? row.account`. -/
def whoOf (row : StakeRow) : Option String :=
  jsCoalesce (idOf row.user) (jsCoalesce (idOf row.owner) (jsCoalesce (idOf row.account)
    (jsCoalesce (ownerRawOf row.user) (jsCoalesce (ownerRawOf row.owner)
      (ownerRawOf row.account)))))

/-- Row loop of step 4A: record `tokenId → depositor` for every truthy pair
(an unconditional `Map.set`). -/
def applyStakeRows (m : DMap) (rows : List StakeRow) : DMap :=
  rows.foldl (fun acc row =>
    let tid := (jsCoalesce row.tokenId row.id).getD ""
    match whoOf row with
    | some w => if tid ≠ "" ∧ w ≠ "" then dmSet acc tid (jsToLower w) else acc
    | none => acc) m

/-- Candidate loop of step 4A: skip failed candidates; stop (with a note) at
the first candidate after which the map is non-empty. -/
def stakeMapGo (m : DMap) : List (Try StakeData) → DMap × List String
  | [] => (m, [])
  | Try.err _ :: rest => stakeMapGo m rest
  | Try.ok d :: rest =>
    let m' := applyStakeRows m (stakeRowsOf d)
    if m'.isEmpty then stakeMapGo m' rest
    else (m', ["Stake mapping matched " ++ toString m'.length ++ " tokenId(s)."])

/-- Step 4A: the stake-mapping strategy (skipped without addresses). -/
def stakeStep (o : Oracle) (addrs : List String) : DMap × List String :=
  if addrs.isEmpty then ([], []) else stakeMapGo [] o.stakedResps

/-- Field fallback of the transfer-mapping rows. -/
def transferRowsOf (d : TransferData) : List TransferRow :=
  (jsCoalesce (jsCoalesce (jsCoalesce d.positionTransfers d.nonfungiblePositionTransfers)
    d.transfers) d.transferEvents).getD []

/-- Row loop of step 4B: guarded insertion — a tokenId already present in the
map is never overwritten. -/
def applyTransferRows (m : DMap) (rows : List TransferRow) : DMap :=
  rows.foldl (fun acc tr =>
    let tid := tr.tokenId.getD ""
    match jsCoalesce (idOf tr.fromAddr) (ownerRawOf tr.fromAddr) with
    | some f => if tid ≠ "" ∧ f ≠ "" ∧ dmHas acc tid = false then dmSet acc tid (jsToLower f)
                else acc
    | none => acc) m

/-- Candidate loop of step 4B: skip failed candidates; stop (with a note) at
the first candidate returning at least one row. -/
def transferGo (m : DMap) : List (Try TransferData) → DMap × List String
  | [] => (m, [])
  | Try.err _ :: rest => transferGo m rest
  | Try.ok d :: rest =>
    let rows := transferRowsOf d
    let m' := applyTransferRows m rows
    if rows.isEmpty then transferGo m' rest
    else (m', ["Transfer mapping matched " ++ toString rows.length ++ " row(s)."])

/-- Step 4B: the subgraph transfer strategy (skipped without stakers or
addresses). -/
def transferStep (o : Oracle) (m : DMap) (addrs stakerList : List String) :
    DMap × List String :=
  if stakerList.isEmpty ∨ addrs.isEmpty then (m, []) else transferGo m o.transferResps

/-- Windowed-scan half of step 4C: for every wallet × staker pair, collect the
scanned tokenIds and insert the gauge-owned ones not yet mapped. -/
def windowedScans (env : Env) (o : Oracle) (addrs stakerList : List String)
    (startBlock : Option Int) (window maxLookback : Int) (gaugeIds : List String)
    (m : DMap) : Except String (DMap × Nat) :=
  addrs.foldlM (fun acc w =>
    stakerList.foldlM (fun acc2 s => do
      let tokenIds ← scanWalletToStaker env o w s startBlock window maxLookback
      pure (tokenIds.foldl (fun acc3 tid =>
        if gaugeIds.contains tid ∧ dmHas acc3.1 tid = false then
          (dmSet acc3.1 tid (jsToLower w), acc3.2 + 1)
        else acc3) acc2)) acc) (m, 0)

/-- Staker loop of the exact scan: stop at the first staker whose scan finds a
log. -/
def exactScanStakers (env : Env) (o : Oracle) (w id : String)
    (startBlock : Option Int) (window maxLookback : Int) :
    List String → Except String Bool
  | [] => pure false
  | s :: rest => do
    let ok ← scanExactToken env o w s id startBlock window maxLookback
    if ok then pure true
    else exactScanStakers env o w id startBlock window maxLookback rest

/-- Wallet loop of the exact scan: record the first wallet whose scan matched,
then stop for this id. -/
def exactScanWallets (env : Env) (o : Oracle) (id : String)
    (startBlock : Option Int) (window maxLookback : Int) (stakerList : List String)
    (m : DMap) : List String → Except String (DMap × Nat)
  | [] => pure (m, 0)
  | w :: rest => do
    let okb ← exactScanStakers env o w id startBlock window maxLookback stakerList
    let m' := if okb then dmSet m id (jsToLower w) else m
    if dmHas m' id then pure (m', if okb then 1 else 0)
    else exactScanWallets env o id startBlock window maxLookback stakerList m' rest

/-- Exact-scan half of step 4C over the still-missing forced ids. -/
def exactScans (env : Env) (o : Oracle) (addrs stakerList : List String)
    (startBlock : Option Int) (window maxLookback : Int)
    (missingForced : List String) (m : DMap) : Except String (DMap × Nat) :=
  missingForced.foldlM (fun acc id => do
    let r ← exactScanWallets env o id startBlock window maxLookback stakerList acc.1 addrs
    pure (r.1, acc.2 + r.2)) (m, 0)

/-- Step 4C: RPC depositor mapping.  Runs only with an RPC URL, gauge-owned
positions, addresses and stakers; uncaught exceptions (head fetch failures)
escape to the route's top-level catch. -/
def rpcMapStep (env : Env) (o : Oracle) (req : Request)
    (addrs forcedIds stakerList : List String) (gaugePositions : List Position)
    (m : DMap) : Except String (DMap × List String) :=
  if env.baseRpcUrl ≠ "" ∧ ¬gaugePositions.isEmpty ∧ ¬addrs.isEmpty ∧ ¬stakerList.isEmpty
  then do
    let startBlock := jsCoalesce (parseBlockParam req.startBlock)
      (parseBlockParam (if env.rpcStartBlock = "" then none else some env.rpcStartBlock))
    let window := (parseBlockParam req.window).getD 50000
    let maxLookback := (parseBlockParam req.maxLookback).getD 150000000
    let gaugeIds := gaugePositions.map Position.id
    let wres ← windowedScans env o addrs stakerList startBlock window maxLookback gaugeIds m
    let missingForced := forcedIds.filter (fun id =>
      gaugeIds.contains id ∧ dmHas wres.1 id = false)
    let eres ← exactScans env o addrs stakerList startBlock window maxLookback
      missingForced wres.1
    let note :=
      if wres.2 + eres.2 > 0 then
        "RPC depositor mapping matched " ++ toString (wres.2 + eres.2) ++ " tokenId(s)."
      else "RPC depositor mapping matched 0 — try &startBlock= or bigger &maxLookback."
    pure (eres.1, [note])
  else if env.baseRpcUrl = "" ∧ ¬gaugePositions.isEmpty then
    pure (m, ["Set BASE_RPC_URL (and optional RPC_START_BLOCK) to enable depositor mapping when the subgraph lacks transfers."])
  else pure (m, [])

/-- The `chosen` assumed-owner of step 4Z:
`assumeOwnerParam || (assume=1 && addrs[0]) || (addrs.length==1 && addrs[0]) || ""`. -/
def chosenOwnerOf (req : Request) (addrs : List String) : String :=
  let assumeFlag := req.assumeParam = some "1"
  let assumeOwner := jsToLower (req.assumeOwnerParam.getD "")
  if assumeOwner ≠ "" then assumeOwner
  else if assumeFlag ∧ addrs.length ≥ 1 then addrs.headD ""
  else if addrs.length = 1 then addrs.headD ""
  else ""

/-- Step 4Z: last-resort assumed depositor for forced tokenIds (guarded
insertion). -/
def assumeStep (req : Request) (addrs forcedIds : List String)
    (gaugePositions : List Position) (m : DMap) : DMap × List String :=
  let chosen := chosenOwnerOf req addrs
  if chosen ≠ "" ∧ ¬forcedIds.isEmpty ∧ ¬gaugePositions.isEmpty then
    let gaugeIdSet := gaugePositions.map Position.id
    let res := forcedIds.foldl (fun acc id =>
      if gaugeIdSet.contains id ∧ dmHas acc.1 id = false then (dmSet acc.1 id chosen, acc.2 + 1)
      else acc) (m, (0 : Nat))
    (res.1,
     if res.2 > 0 then
       ["Assumed depositor=" ++ chosen ++ " for " ++ toString res.2 ++
        " tokenId(s) from tokenIds[]."]
     else [])
  else (m, [])

/-- Step 4: the full depositor-resolution chain, in strategy order
4A → 4B → 4C → 4Z. -/
def depositorStep (env : Env) (o : Oracle) (req : Request)
    (addrs forcedIds stakerList : List String) (gaugePositions : List Position) :
    Except String (DMap × List String) := do
  let ra := stakeStep o addrs
  let rb := transferStep o ra.1 addrs stakerList
  let rc ← rpcMapStep env o req addrs forcedIds stakerList gaugePositions rb.1
  let rz := assumeStep req addrs forcedIds gaugePositions rc.1
  pure (rz.1, ra.2 ++ rb.2 ++ rc.2 ++ rz.2)

/-- Step 5 id selection: gauge-owned tokenIds whose depositor is one of the
queried wallets, deduplicated preserving order. -/
def yourStakedIdsOf (addrs : List String) (gaugePositions : List Position) (m : DMap) :
    List String :=
  (((gaugePositions.map Position.id).filter (fun tid =>
    addrs.contains ((dmLookup m tid).getD ""))).foldl setAdd [])

/-- Step 5 rehydration of the selected staked ids. -/
def rehydrateStep (o : Oracle) (ids : List String) : List Position × List String :=
  if ids.isEmpty then ([], ["No gauge-owned token mapped to your wallets yet."])
  else
    match o.posByIds ids with
    | Try.ok d => (d.positions.getD [], [])
    | Try.err e => ([], ["Positions-by-ids failed: " ++ e])

/- ========= Emit and enrichment ========= -/

/-- A wallet-owned row of step 6 (staked is false, owner is the raw owner). -/
def walletRow (p : Position) : Row :=
  { owner := ownerRawOf p.owner
    tokenId := p.id
    poolId := p.pool.bind Pool.id
    token0 := p.pool.bind Pool.token0
    token1 := p.pool.bind Pool.token1
    depositedT0 := p.depositedToken0.getD "0"
    depositedT1 := p.depositedToken1.getD "0"
    feesT0 := p.collectedFeesToken0.getD "0"
    feesT1 := p.collectedFeesToken1.getD "0"
    emissions := none
    range := normalizeTicks p
    staked := false
    gauge := none }

/-- A staked row of step 6: owner is `depositor || rawOwner` (JS falsy
fallback), staked is true, and the gauge address is kept in `__gauge`. -/
def stakedRow (m : DMap) (p : Position) : Row :=
  { walletRow p with
    owner :=
      match dmLookup m p.id with
      | some d => if d = "" then ownerRawOf p.owner else some d
      | none => ownerRawOf p.owner
    staked := true
    gauge := ownerRawOf p.owner }

/-- The shared emit loop of step 6 with its `seen` dedup set. -/
def emitLoop (mk : Position → Row) (seen : List String) (rows : List Row) :
    List Position → List Row × List String
  | [] => (rows, seen)
  | p :: rest =>
    if seen.contains p.id then emitLoop mk seen rows rest
    else emitLoop mk (seen ++ [p.id]) (rows ++ [mk p]) rest

/-- Step 6: wallet rows first, then staked rows, deduplicated by tokenId. -/
def emitRows (walletPositions yourStaked : List Position) (m : DMap) : List Row :=
  let r1 := emitLoop walletRow [] [] walletPositions
  (emitLoop (stakedRow m) r1.2 r1.1 yourStaked).1

/-- The fee-refresh guard of step 7. -/
def needFeesOf (row : Row) : Bool :=
  (row.feesT0 = "0" ∨ row.feesT0 = "0.0") ∧ (row.feesT1 = "0" ∨ row.feesT1 = "0.0")

/-- Step 7 per-row enrichment: refresh zero fees from `NFPM.positions`,
compute emissions for staked rows via `gauge.earned`, then delete `__gauge`.
Every RPC failure is swallowed per row. -/
def enrichRow (env : Env) (o : Oracle) (row : Row) : Row :=
  let row1 :=
    if needFeesOf row then
      match nfpmPositions env o row.tokenId with
      | Except.ok owed =>
        let dec0 := (row.token0.bind TokenInfo.decimals).getD 18
        let dec1 := (row.token1.bind TokenInfo.decimals).getD 18
        { row with feesT0 := formatUnits owed.1 dec0, feesT1 := formatUnits owed.2 dec1 }
      | Except.error _ => row
    else row
  let row2 :=
    if row1.staked then
      let depositor := jsToLower (row1.owner.getD "")
      let gauge := jsToLower (row1.gauge.getD "")
      if depositor ≠ "" ∧ gauge ≠ "" then
        let r := gaugeEarned env o gauge depositor row1.tokenId
        { row1 with emissions := some (formatUnits r.1 r.2) }
      else row1
    else row1
  { row2 with gauge := none }

/- ========= The route handler ========= -/

/-- The body of the positions route handler, before the top-level catch.
`Except.error` marks an uncaught JavaScript exception escaping the body. -/
def GETbody (env : Env) (o : Oracle) (req : Request) : Except String ApiResponse :=
  let addrs := addrsOf req
  let forcedIds := forcedIdsOf req
  if addrs.isEmpty ∧ forcedIds.isEmpty then
    Except.ok
      { status := 200, items := [],
        notes := ["Pass addresses[]=0x... (and optionally tokenIds[]=<id>)"] }
  else if env.aeroSlipstreamSubgraph = "" then
    Except.ok { status := 200, items := [], notes := ["AERO_SLIPSTREAM_SUBGRAPH missing."] }
  else
    let r1 := walletStep o addrs
    let stakerList := discoverStakers env o
    let n2 := stakerNotes env stakerList
    let r3 := gaugeStep o stakerList
    let r3b := forcedStep o forcedIds stakerList r3.1
    match depositorStep env o req addrs forcedIds stakerList r3b.1 with
    | Except.error e => Except.error e
    | Except.ok rd =>
      let yourStakedIds := yourStakedIdsOf addrs r3b.1 rd.1
      let r5 := rehydrateStep o yourStakedIds
      let rows := emitRows r1.1 r5.1 rd.1
      let r7 : List Row × List String :=
        if env.baseRpcUrl ≠ "" ∧ ¬rows.isEmpty then (rows.map (enrichRow env o), [])
        else if env.baseRpcUrl = "" then
          (rows, ["Set BASE_RPC_URL to enrich live fees/emissions via RPC."])
        else (rows, [])
      Except.ok
        { status := 200, items := r7.1,
          notes := r1.2 ++ n2 ++ r3.2 ++ r3b.2 ++ rd.2 ++ r5.2 ++ r7.2 ++
            ["Slipstream: positions loaded ✅ (" ++ toString r7.1.length ++ " rows)."] }

/-- The positions route handler: the body wrapped in the top-level catch that
converts any escaped exception into an HTTP 200 response with empty items and
a diagnostic note. -/
def positionsGET (env : Env) (o : Oracle) (req : Request) : ApiResponse :=
  match GETbody env o req with
  | Except.ok r => r
  | Except.error e => { status := 200, items := [], notes := ["Route crashed", e] }

/- ========= Shared concrete instances for witnesses ========= -/

/-- An oracle whose every call fails; used to instantiate theorems. -/
def oracleNone : Oracle :=
  { posByOwnerV1 := fun _ => Try.err "down"
    posByOwnerV2 := fun _ => Try.err "down"
    posByIds := fun _ => Try.err "down"
    stakersResps := []
    stakedResps := []
    transferResps := []
    blockNumber := Except.error "down"
    getLogs := fun _ => Except.error "down"
    ethCall := fun _ _ => Except.error "down" }

/- ========= Claim C6 ========= -/

/-- C6: a request with zero wallet addresses and zero explicit tokenIds gets
HTTP 200 with an empty items array and a non-empty notes array holding the
usage hint. -/
theorem positionsGET_no_input (env : Env) (o : Oracle) (req : Request)
    (ha : addrsOf req = []) (hf : forcedIdsOf req = []) :
    positionsGET env o req =
      { status := 200, items := [],
        notes := ["Pass addresses[]=0x... (and optionally tokenIds[]=<id>)"] }
    ∧ (positionsGET env o req).notes ≠ [] := by
  have hbody : GETbody env o req =
      Except.ok
        { status := 200, items := [],
          notes := ["Pass addresses[]=0x... (and optionally tokenIds[]=<id>)"] } := by
    unfold GETbody
    simp [ha, hf]
  constructor
  · unfold positionsGET
    rw [hbody]
  · unfold positionsGET
    rw [hbody]
    simp

/-- C6 witness: the empty request against a dead oracle. -/
theorem positionsGET_no_input_witness :
    positionsGET {} oracleNone {} =
      { status := 200, items := [],
        notes := ["Pass addresses[]=0x... (and optionally tokenIds[]=<id>)"] }
    ∧ (positionsGET {} oracleNone {}).notes ≠ [] :=
  positionsGET_no_input {} oracleNone {} rfl rfl

/- ========= Claim C7 ========= -/

/-- C7: with at least one address but no configured indexer URL, the endpoint
returns items `[]` and exactly the note naming the missing configuration,
without throwing. -/
theorem positionsGET_missing_subgraph (env : Env) (o : Oracle) (req : Request)
    (ha : addrsOf req ≠ []) (hurl : env.aeroSlipstreamSubgraph = "") :
    positionsGET env o req =
      { status := 200, items := [], notes := ["AERO_SLIPSTREAM_SUBGRAPH missing."] } := by
  have hne : (addrsOf req).isEmpty = false := by
    cases h : addrsOf req with
    | nil => exact absurd h ha
    | cons a l => rfl
  have hbody : GETbody env o req =
      Except.ok
        { status := 200, items := [], notes := ["AERO_SLIPSTREAM_SUBGRAPH missing."] } := by
    unfold GETbody
    simp [hne, hurl]
  unfold positionsGET
  rw [hbody]

/-- C7 witness: one address, empty environment. -/
theorem positionsGET_missing_subgraph_witness :
    positionsGET {} oracleNone { addresses := ["0xabc"] } =
      { status := 200, items := [], notes := ["AERO_SLIPSTREAM_SUBGRAPH missing."] } :=
  positionsGET_missing_subgraph {} oracleNone { addresses := ["0xabc"] } (by decide) rfl

/- ========= Claim C9 ========= -/

/-- C9: the handler is deterministic as a function of the request and the
external responses — two runs whose oracles answer identically produce
identical responses (hence identical items and notes). -/
theorem positionsGET_deterministic (env : Env) (req : Request) (o₁ o₂ : Oracle)
    (h1 : ∀ x, o₁.posByOwnerV1 x = o₂.posByOwnerV1 x)
    (h2 : ∀ x, o₁.posByOwnerV2 x = o₂.posByOwnerV2 x)
    (h3 : ∀ x, o₁.posByIds x = o₂.posByIds x)
    (h4 : o₁.stakersResps = o₂.stakersResps)
    (h5 : o₁.stakedResps = o₂.stakedResps)
    (h6 : o₁.transferResps = o₂.transferResps)
    (h7 : o₁.blockNumber = o₂.blockNumber)
    (h8 : ∀ f, o₁.getLogs f = o₂.getLogs f)
    (h9 : ∀ a b, o₁.ethCall a b = o₂.ethCall a b) :
    positionsGET env o₁ req = positionsGET env o₂ req
    ∧ (positionsGET env o₁ req).items = (positionsGET env o₂ req).items := by
  have heq : o₁ = o₂ := by
    cases o₁
    cases o₂
    congr 1
    · exact funext h1
    · exact funext h2
    · exact funext h3
    · exact funext h8
    · exact funext (fun a => funext (h9 a))
  rw [heq]
  exact ⟨rfl, rfl⟩

/-- C9 witness: two syntactically separate but identically-answering oracles
on a concrete request. -/
theorem positionsGET_deterministic_witness :
    positionsGET {} oracleNone { addresses := ["0xabc"] }
      = positionsGET {} oracleNone { addresses := ["0xabc"] }
    ∧ (positionsGET {} oracleNone { addresses := ["0xabc"] }).items
      = (positionsGET {} oracleNone { addresses := ["0xabc"] }).items :=
  positionsGET_deterministic {} { addresses := ["0xabc"] } oracleNone oracleNone
    (fun _ => rfl) (fun _ => rfl) (fun _ => rfl) rfl rfl rfl rfl
    (fun _ => rfl) (fun _ _ => rfl)

/- ========= Claim C4 ========= -/

/-- Every successful body result carries HTTP status 200 (the route only ever
builds 200 responses). -/
theorem GETbody_ok_status (env : Env) (o : Oracle) (req : Request) (r : ApiResponse)
    (h : GETbody env o req = Except.ok r) : r.status = 200 := by
  simp only [GETbody] at h
  by_cases h1 : ((addrsOf req).isEmpty = true ∧ (forcedIdsOf req).isEmpty = true)
  · rw [if_pos h1] at h
    cases h
    rfl
  · rw [if_neg h1] at h
    by_cases h2 : env.aeroSlipstreamSubgraph = ""
    · rw [if_pos h2] at h
      cases h
      rfl
    · rw [if_neg h2] at h
      cases hd : depositorStep env o req (addrsOf req) (forcedIdsOf req)
        (discoverStakers env o)
        (forcedStep o (forcedIdsOf req) (discoverStakers env o)
          (gaugeStep o (discoverStakers env o)).1).1 with
      | error e =>
        rw [hd] at h
        cases h
      | ok rd =>
        rw [hd] at h
        cases h
        rfl

/-- C4: the positions handler never terminates with a hard failure: admissible
responses always carry HTTP 200, and whenever the aggregation body escapes
with an exception the top-level catch converts it into a 200 response with an
empty items array and a diagnostic note carrying the error. -/
theorem positionsGET_never_hard_fails (env : Env) (o : Oracle) (req : Request) :
    (positionsGET env o req).status = 200
    ∧ (∀ e, GETbody env o req = Except.error e →
      (positionsGET env o req).items = [] ∧
      (positionsGET env o req).notes = ["Route crashed", e]) := by
  constructor
  · cases hb : GETbody env o req with
    | ok r =>
      unfold positionsGET
      rw [hb]
      exact GETbody_ok_status env o req r hb
    | error e =>
      unfold positionsGET
      rw [hb]
  · intro e he
    unfold positionsGET
    rw [he]
    exact ⟨rfl, rfl⟩

/-- Gauge-owned position used by concrete runs. -/
def posGauge : Position := { id := "7", owner := some (OwnerField.str "0xgauge") }

/-- An oracle whose indexer works but whose RPC node is down: the depositor
log scan throws. -/
def oracleBoom : Oracle :=
  { posByOwnerV1 := fun _ => Try.ok { positions := some [posGauge] }
    posByOwnerV2 := fun _ => Try.err "down"
    posByIds := fun _ => Try.err "down"
    stakersResps := []
    stakedResps := []
    transferResps := []
    blockNumber := Except.error "boom"
    getLogs := fun _ => Except.error "down"
    ethCall := fun _ _ => Except.error "down" }

/-- Environment with an indexer URL, an env-provided staker and an RPC URL. -/
def envBoom : Env :=
  { aeroSlipstreamSubgraph := "u", slipstreamStakers := "0xgauge", baseRpcUrl := "r" }

/-- C4 witness: a concrete request on which the body does raise (the chain-head
fetch of the depositor scan fails), and the response is the 200 catch shape. -/
theorem positionsGET_never_hard_fails_witness :
    (positionsGET envBoom oracleBoom { addresses := ["0xME"] }).items = []
    ∧ (positionsGET envBoom oracleBoom { addresses := ["0xME"] }).notes
      = ["Route crashed", "boom"] :=
  (positionsGET_never_hard_fails envBoom oracleBoom { addresses := ["0xME"] }).2 "boom" rfl

/- ========= Claim C1 ========= -/

/-- A staker-discovery response that succeeds at the transport level but
carries zero rows. -/
def stakersDataEmpty : StakersData := {}

/-- A staker-discovery response carrying one gauge row. -/
def stakersDataOne : StakersData := { clGauges := some [some "0xAAA"] }

/-- A stake-mapping response binding tokenId 6 to wallet 0xB (via the
`stakes` field variant). -/
def stakeDataSix : StakeData :=
  { stakes := some [{ tokenId := some "6", owner := some (OwnerField.obj (some "0xB")) }] }

/-- A transfer-mapping response with one row: tokenId 9 from wallet 0xC. -/
def transferDataNine : TransferData :=
  { transfers := some [{ tokenId := some "9", fromAddr := some (OwnerField.str "0xC") }] }

/-- Candidate loop of step 4A instrumented to also count the candidate
queries issued (identical traversal to `stakeMapGo`). -/
def stakeMapGoCount (m : DMap) : List (Try StakeData) → (DMap × List String) × Nat
  | [] => ((m, []), 0)
  | Try.err _ :: rest =>
    let r := stakeMapGoCount m rest
    (r.1, r.2 + 1)
  | Try.ok d :: rest =>
    let m' := applyStakeRows m (stakeRowsOf d)
    if m'.isEmpty then
      let r := stakeMapGoCount m' rest
      (r.1, r.2 + 1)
    else ((m', ["Stake mapping matched " ++ toString m'.length ++ " tokenId(s)."]), 1)

/-- Candidate loop of step 4B instrumented to also count the candidate
queries issued (identical traversal to `transferGo`). -/
def transferGoCount (m : DMap) : List (Try TransferData) → (DMap × List String) × Nat
  | [] => ((m, []), 0)
  | Try.err _ :: rest =>
    let r := transferGoCount m rest
    (r.1, r.2 + 1)
  | Try.ok d :: rest =>
    let rows := transferRowsOf d
    let m' := applyTransferRows m rows
    if rows.isEmpty then
      let r := transferGoCount m' rest
      (r.1, r.2 + 1)
    else ((m', ["Transfer mapping matched " ++ toString rows.length ++ " row(s)."]), 1)

/-- The instrumented staker-discovery loop computes the same result as the
pipeline's `dsGo`. -/
theorem dsGoCount_fst :
    ∀ (rs : List (Try StakersData)) (set : List String),
      (dsGoCount set rs).1 = dsGo set rs := by
  intro rs
  induction rs with
  | nil =>
    intro set
    rfl
  | cons r rest ih =>
    intro set
    cases r with
    | err e => exact ih set
    | ok d =>
      simp only [dsGoCount, dsGo]
      split
      · exact ih _
      · rfl

/-- The instrumented stake-mapping loop computes the same result as the
pipeline's `stakeMapGo`. -/
theorem stakeMapGoCount_fst :
    ∀ (rs : List (Try StakeData)) (m : DMap),
      (stakeMapGoCount m rs).1 = stakeMapGo m rs := by
  intro rs
  induction rs with
  | nil =>
    intro m
    rfl
  | cons r rest ih =>
    intro m
    cases r with
    | err e => exact ih m
    | ok d =>
      simp only [stakeMapGoCount, stakeMapGo]
      split
      · exact ih _
      · rfl

/-- The instrumented transfer-mapping loop computes the same result as the
pipeline's `transferGo`. -/
theorem transferGoCount_fst :
    ∀ (rs : List (Try TransferData)) (m : DMap),
      (transferGoCount m rs).1 = transferGo m rs := by
  intro rs
  induction rs with
  | nil =>
    intro m
    rfl
  | cons r rest ih =>
    intro m
    cases r with
    | err e => exact ih m
    | ok d =>
      simp only [transferGoCount, transferGo]
      split
      · exact ih _
      · rfl

/-- C1 counterexample: in each of the three candidate loops — staker
discovery (with no env-provided stakers), stake-mapping and
transfer-mapping — the first candidate succeeds at the transport level with
zero usable rows, yet a second candidate query is still issued, contradicting
the claim that the first transport-level success is final even when it yields
zero rows. -/
theorem candidate_loops_zero_rows_fall_through :
    ((dsGoCount [] [Try.ok stakersDataEmpty, Try.ok stakersDataOne]).2 = 2
      ∧ (dsGoCount [] [Try.ok stakersDataEmpty, Try.ok stakersDataOne]).2 ≠ 1
      ∧ dsGo [] [Try.ok stakersDataEmpty, Try.ok stakersDataOne] = ["0xaaa"])
    ∧ ((stakeMapGoCount [] [Try.ok ({} : StakeData), Try.ok stakeDataSix]).2 = 2
      ∧ (stakeMapGoCount [] [Try.ok ({} : StakeData), Try.ok stakeDataSix]).2 ≠ 1)
    ∧ ((transferGoCount [] [Try.ok ({} : TransferData), Try.ok transferDataNine]).2 = 2
      ∧ (transferGoCount [] [Try.ok ({} : TransferData), Try.ok transferDataNine]).2 ≠ 1) := by
  refine ⟨⟨rfl, by decide, rfl⟩, ⟨rfl, by decide⟩, ⟨rfl, by decide⟩⟩

/-- C1 (amended): in each of the three candidate loops — staker discovery,
stake-mapping, transfer-mapping — candidates are attempted strictly in list
order, and the first transport-level success whose accumulated result is
non-empty (the staker set after adding the response rows; the depositor map
after inserting the response rows; the response row list itself) is final: the
loop stops there with one query charged to it, regardless of what later
candidates would return.  A transport-level success that leaves the
accumulator empty instead falls through, issuing one more query than the
remainder of the candidate list. -/
theorem candidate_loops_first_success_policy :
    (∀ (set : List String) (d : StakersData) (rest : List (Try StakersData)),
      addGaugeIds set (gaugeRowsOf d) ≠ [] →
      dsGoCount set (Try.ok d :: rest) = (addGaugeIds set (gaugeRowsOf d), 1))
    ∧ (∀ (set : List String) (d : StakersData) (rest : List (Try StakersData)),
      addGaugeIds set (gaugeRowsOf d) = [] →
      dsGoCount set (Try.ok d :: rest)
        = ((dsGoCount (addGaugeIds set (gaugeRowsOf d)) rest).1,
           (dsGoCount (addGaugeIds set (gaugeRowsOf d)) rest).2 + 1))
    ∧ (∀ (m : DMap) (d : StakeData) (rest : List (Try StakeData)),
      applyStakeRows m (stakeRowsOf d) ≠ [] →
      stakeMapGoCount m (Try.ok d :: rest)
        = ((applyStakeRows m (stakeRowsOf d),
            ["Stake mapping matched "
              ++ toString (applyStakeRows m (stakeRowsOf d)).length ++ " tokenId(s)."]), 1))
    ∧ (∀ (m : DMap) (d : StakeData) (rest : List (Try StakeData)),
      applyStakeRows m (stakeRowsOf d) = [] →
      stakeMapGoCount m (Try.ok d :: rest)
        = ((stakeMapGoCount (applyStakeRows m (stakeRowsOf d)) rest).1,
           (stakeMapGoCount (applyStakeRows m (stakeRowsOf d)) rest).2 + 1))
    ∧ (∀ (m : DMap) (d : TransferData) (rest : List (Try TransferData)),
      transferRowsOf d ≠ [] →
      transferGoCount m (Try.ok d :: rest)
        = ((applyTransferRows m (transferRowsOf d),
            ["Transfer mapping matched "
              ++ toString (transferRowsOf d).length ++ " row(s)."]), 1))
    ∧ (∀ (m : DMap) (d : TransferData) (rest : List (Try TransferData)),
      transferRowsOf d = [] →
      transferGoCount m (Try.ok d :: rest)
        = ((transferGoCount (applyTransferRows m (transferRowsOf d)) rest).1,
           (transferGoCount (applyTransferRows m (transferRowsOf d)) rest).2 + 1)) := by
  refine ⟨?_, ?_, ?_, ?_, ?_, ?_⟩
  · intro set d rest h
    have hie : (addGaugeIds set (gaugeRowsOf d)).isEmpty = false := by
      cases hh : addGaugeIds set (gaugeRowsOf d) with
      | nil => exact absurd hh h
      | cons a l => rfl
    simp [dsGoCount, hie]
  · intro set d rest h
    simp [dsGoCount, h]
  · intro m d rest h
    have hie : (applyStakeRows m (stakeRowsOf d)).isEmpty = false := by
      cases hh : applyStakeRows m (stakeRowsOf d) with
      | nil => exact absurd hh h
      | cons a l => rfl
    simp [stakeMapGoCount, hie]
  · intro m d rest h
    simp [stakeMapGoCount, h]
  · intro m d rest h
    have hie : (transferRowsOf d).isEmpty = false := by
      cases hh : transferRowsOf d with
      | nil => exact absurd hh h
      | cons a l => rfl
    simp [transferGoCount, hie]
  · intro m d rest h
    simp [transferGoCount, h]

/-- C1 amended-claim witness: all six cases at concrete inputs — in each loop
a first success with rows is final even though another candidate follows, and
a first success with zero rows falls through to the remaining candidate. -/
theorem candidate_loops_first_success_policy_witness :
    dsGoCount [] (Try.ok stakersDataOne :: [Try.ok stakersDataEmpty])
      = (addGaugeIds [] (gaugeRowsOf stakersDataOne), 1)
    ∧ dsGoCount [] (Try.ok stakersDataEmpty :: [Try.ok stakersDataOne])
      = ((dsGoCount (addGaugeIds [] (gaugeRowsOf stakersDataEmpty)) [Try.ok stakersDataOne]).1,
         (dsGoCount (addGaugeIds [] (gaugeRowsOf stakersDataEmpty)) [Try.ok stakersDataOne]).2 + 1)
    ∧ stakeMapGoCount [] (Try.ok stakeDataSix :: [Try.err "e"])
      = ((applyStakeRows [] (stakeRowsOf stakeDataSix),
          ["Stake mapping matched "
            ++ toString (applyStakeRows [] (stakeRowsOf stakeDataSix)).length ++ " tokenId(s)."]), 1)
    ∧ stakeMapGoCount [] (Try.ok ({} : StakeData) :: [Try.ok stakeDataSix])
      = ((stakeMapGoCount (applyStakeRows [] (stakeRowsOf ({} : StakeData)))
            [Try.ok stakeDataSix]).1,
         (stakeMapGoCount (applyStakeRows [] (stakeRowsOf ({} : StakeData)))
            [Try.ok stakeDataSix]).2 + 1)
    ∧ transferGoCount [] (Try.ok transferDataNine :: [Try.err "e"])
      = ((applyTransferRows [] (transferRowsOf transferDataNine),
          ["Transfer mapping matched "
            ++ toString (transferRowsOf transferDataNine).length ++ " row(s)."]), 1)
    ∧ transferGoCount [] (Try.ok ({} : TransferData) :: [Try.ok transferDataNine])
      = ((transferGoCount (applyTransferRows [] (transferRowsOf ({} : TransferData)))
            [Try.ok transferDataNine]).1,
         (transferGoCount (applyTransferRows [] (transferRowsOf ({} : TransferData)))
            [Try.ok transferDataNine]).2 + 1) :=
  ⟨candidate_loops_first_success_policy.1 [] stakersDataOne [Try.ok stakersDataEmpty]
     (by decide),
   candidate_loops_first_success_policy.2.1 [] stakersDataEmpty [Try.ok stakersDataOne] rfl,
   candidate_loops_first_success_policy.2.2.1 [] stakeDataSix [Try.err "e"] (by decide),
   candidate_loops_first_success_policy.2.2.2.1 [] ({} : StakeData) [Try.ok stakeDataSix] rfl,
   candidate_loops_first_success_policy.2.2.2.2.1 [] transferDataNine [Try.err "e"]
     (by decide),
   candidate_loops_first_success_policy.2.2.2.2.2 [] ({} : TransferData)
     [Try.ok transferDataNine] rfl⟩

/- ========= Map-preservation lemmas (claim C10) ========= -/

/-- Setting a different key leaves a lookup unchanged. -/
theorem dmLookup_dmSet_ne (m : DMap) (k v k' : String) (h : k ≠ k') :
    dmLookup (dmSet m k v) k' = dmLookup m k' := by
  induction m with
  | nil => simp [dmSet, dmLookup, beq_iff_eq, h]
  | cons p rest ih =>
    rcases p with ⟨pk, pv⟩
    simp only [dmSet]
    by_cases hpk : pk = k
    · subst hpk
      simp [dmLookup, beq_iff_eq, h]
    · simp [dmLookup, beq_iff_eq, hpk, ih]

/-- A `Map.set` guarded by `!has` never disturbs an existing binding. -/
theorem dmSet_guarded_preserve (acc : DMap) (tid w k v : String)
    (hv : dmLookup acc k = some v) (hg : dmHas acc tid = false) :
    dmLookup (dmSet acc tid w) k = some v := by
  have hne : tid ≠ k := by
    intro he
    subst he
    unfold dmHas at hg
    rw [hv] at hg
    simp at hg
  rw [dmLookup_dmSet_ne acc tid w k hne]
  exact hv

/-- Preservation of a predicate along `List.foldl`. -/
theorem foldl_preserve {α β : Type} (P : β → Prop) (f : β → α → β)
    (l : List α) (hf : ∀ b a, P b → P (f b a)) :
    ∀ b, P b → P (l.foldl f b) := by
  induction l with
  | nil =>
    intro b hb
    simpa using hb
  | cons a rest ih =>
    intro b hb
    rw [List.foldl_cons]
    exact ih (f b a) (hf b a hb)
/-- `Except` bind on a success is application (definitional). -/
theorem exceptBind_ok {α β : Type} (a : α) (f : α → Except String β) :
    (Except.ok a >>= f) = f a := rfl

/-- `Except` bind on a failure short-circuits (definitional). -/
theorem exceptBind_error {α β : Type} (e : String) (f : α → Except String β) :
    ((Except.error e : Except String α) >>= f) = Except.error e := rfl

/-- `pure` of the `Except` monad (definitional). -/
theorem exceptPure {α : Type} (a : α) : (pure a : Except String α) = Except.ok a := rfl

/-- Preservation of a predicate along `List.foldlM` in the `Except` monad
(the step hypothesis may use membership of the element). -/
theorem foldlM_except_preserve {α β : Type} (P : β → Prop)
    (f : β → α → Except String β) (l : List α)
    (hf : ∀ b a, a ∈ l → P b → ∀ b', f b a = Except.ok b' → P b') :
    ∀ b b', P b → l.foldlM f b = Except.ok b' → P b' := by
  induction l with
  | nil =>
    intro b b' hb h
    simp only [List.foldlM_nil, exceptPure, Except.ok.injEq] at h
    subst h
    exact hb
  | cons a rest ih =>
    intro b b' hb h
    rw [List.foldlM_cons] at h
    cases hfa : f b a with
    | error e =>
      rw [hfa, exceptBind_error] at h
      exact Except.noConfusion h
    | ok b1 =>
      rw [hfa, exceptBind_ok] at h
      exact ih (fun b2 a2 ha2 => hf b2 a2 (List.mem_cons_of_mem a ha2)) b1 b'
        (hf b a (List.mem_cons_self a rest) hb b1 hfa) h

/-- Step 4B's row loop only inserts absent tokenIds, so it preserves every
existing binding. -/
theorem applyTransferRows_preserve (rows : List TransferRow) (m : DMap) (k v : String)
    (h : dmLookup m k = some v) :
    dmLookup (applyTransferRows m rows) k = some v := by
  unfold applyTransferRows
  refine foldl_preserve (fun mm => dmLookup mm k = some v) _ rows ?_ m h
  intro acc tr hacc
  rcases hsc : jsCoalesce (idOf tr.fromAddr) (ownerRawOf tr.fromAddr) with _ | f
  · simpa [hsc] using hacc
  · simp only [hsc]
    split
    · rename_i hcond
      exact dmSet_guarded_preserve acc _ _ k v hacc hcond.2.2
    · exact hacc

/-- Step 4B's candidate loop preserves existing bindings. -/
theorem transferGo_preserve (resps : List (Try TransferData)) :
    ∀ (m : DMap) (k v : String), dmLookup m k = some v →
      dmLookup (transferGo m resps).1 k = some v := by
  induction resps with
  | nil =>
    intro m k v h
    simpa [transferGo] using h
  | cons r rest ih =>
    intro m k v h
    cases r with
    | err e => simpa [transferGo] using ih m k v h
    | ok d =>
      simp only [transferGo]
      split
      · exact ih _ k v (applyTransferRows_preserve _ m k v h)
      · exact applyTransferRows_preserve _ m k v h

/-- Step 4B as a whole preserves existing bindings. -/
theorem transferStep_preserve (o : Oracle) (m : DMap) (addrs stakerList : List String)
    (k v : String) (h : dmLookup m k = some v) :
    dmLookup (transferStep o m addrs stakerList).1 k = some v := by
  unfold transferStep
  split
  · exact h
  · exact transferGo_preserve o.transferResps m k v h

/-- The windowed-scan inserts of step 4C are guarded, so they preserve
existing bindings. -/
theorem windowedScans_preserve (env : Env) (o : Oracle) (addrs stakerList : List String)
    (startBlock : Option Int) (window maxLookback : Int) (gaugeIds : List String)
    (m : DMap) (k v : String) (res : DMap × Nat)
    (h : dmLookup m k = some v)
    (hr : windowedScans env o addrs stakerList startBlock window maxLookback gaugeIds m
      = Except.ok res) :
    dmLookup res.1 k = some v := by
  unfold windowedScans at hr
  refine foldlM_except_preserve (fun st => dmLookup st.1 k = some v) _ addrs ?_ (m, 0) res h hr
  intro b a _ hb b' hfb
  refine foldlM_except_preserve (fun st => dmLookup st.1 k = some v) _ stakerList ?_ b b' hb hfb
  intro b2 s _ hb2 b2' hfs
  cases hsc : scanWalletToStaker env o a s startBlock window maxLookback with
  | error e =>
    rw [hsc, exceptBind_error] at hfs
    exact Except.noConfusion hfs
  | ok tids =>
    rw [hsc, exceptBind_ok] at hfs
    simp only [exceptPure, Except.ok.injEq] at hfs
    subst hfs
    refine foldl_preserve (fun st => dmLookup st.1 k = some v) _ tids ?_ b2 hb2
    intro b3 tid hb3
    split
    · rename_i hcond
      exact dmSet_guarded_preserve b3.1 _ _ k v hb3 hcond.2
    · exact hb3

/-- The exact-scan wallet loop only writes the key it is resolving, so every
other binding survives. -/
theorem exactScanWallets_preserve (env : Env) (o : Oracle) (id : String)
    (startBlock : Option Int) (window maxLookback : Int) (stakerList : List String)
    (k v : String) (hne : id ≠ k) :
    ∀ (ws : List String) (m : DMap) (res : DMap × Nat), dmLookup m k = some v →
      exactScanWallets env o id startBlock window maxLookback stakerList m ws
        = Except.ok res →
      dmLookup res.1 k = some v := by
  intro ws
  induction ws with
  | nil =>
    intro m res hm h
    have h' : Except.ok (m, (0 : Nat)) = Except.ok res := h
    cases h'
    exact hm
  | cons a rest ih =>
    intro m res hm h
    simp only [exactScanWallets] at h
    cases hok : exactScanStakers env o a id startBlock window maxLookback stakerList with
    | error e =>
      rw [hok, exceptBind_error] at h
      exact Except.noConfusion h
    | ok okb =>
      rw [hok, exceptBind_ok] at h
      cases okb with
      | false =>
        simp only [Bool.false_eq_true, if_false] at h
        split at h
        · have h' : Except.ok (m, (0 : Nat)) = Except.ok res := h
          cases h'
          exact hm
        · exact ih m res hm h
      | true =>
        simp only [if_true] at h
        have hmset : dmLookup (dmSet m id (jsToLower a)) k = some v := by
          rw [dmLookup_dmSet_ne _ _ _ _ hne]
          exact hm
        split at h
        · have h' : Except.ok (dmSet m id (jsToLower a), (1 : Nat)) = Except.ok res := h
          cases h'
          exact hmset
        · exact ih _ res hmset h

/-- The exact-scan phase of step 4C preserves every binding whose key is not
among the ids it resolves. -/
theorem exactScans_preserve (env : Env) (o : Oracle) (addrs stakerList : List String)
    (startBlock : Option Int) (window maxLookback : Int) (k v : String)
    (ids : List String) (hk : k ∉ ids) (m : DMap) (res : DMap × Nat)
    (hm : dmLookup m k = some v)
    (h : exactScans env o addrs stakerList startBlock window maxLookback ids m
      = Except.ok res) :
    dmLookup res.1 k = some v := by
  unfold exactScans at h
  refine foldlM_except_preserve (fun st => dmLookup st.1 k = some v) _ ids ?_ (m, 0) res hm h
  intro b id' hid hb b' hfb
  have hne : id' ≠ k := fun he => hk (he ▸ hid)
  cases hw : exactScanWallets env o id' startBlock window maxLookback stakerList b.1 addrs with
  | error e =>
    rw [hw, exceptBind_error] at hfb
    exact Except.noConfusion hfb
  | ok r1 =>
    rw [hw, exceptBind_ok] at hfb
    simp only [exceptPure, Except.ok.injEq] at hfb
    subst hfb
    exact exactScanWallets_preserve env o id' startBlock window maxLookback stakerList k v hne
      addrs b.1 r1 hb hw

/-- Step 4C as a whole preserves existing bindings: the windowed scan inserts
only unmapped ids, and the exact scan only resolves ids that were unmapped
when `missingForced` was computed. -/
theorem rpcMapStep_preserve (env : Env) (o : Oracle) (req : Request)
    (addrs forcedIds stakerList : List String) (gaugePositions : List Position)
    (m : DMap) (k v : String) (res : DMap × List String)
    (h : dmLookup m k = some v)
    (hr : rpcMapStep env o req addrs forcedIds stakerList gaugePositions m
      = Except.ok res) :
    dmLookup res.1 k = some v := by
  simp only [rpcMapStep] at hr
  split at hr
  · cases hw : windowedScans env o addrs stakerList
        (jsCoalesce (parseBlockParam req.startBlock)
          (parseBlockParam (if env.rpcStartBlock = "" then none else some env.rpcStartBlock)))
        ((parseBlockParam req.window).getD 50000)
        ((parseBlockParam req.maxLookback).getD 150000000)
        (gaugePositions.map Position.id) m with
    | error e =>
      rw [hw, exceptBind_error] at hr
      exact Except.noConfusion hr
    | ok wres =>
      rw [hw, exceptBind_ok] at hr
      have h1 : dmLookup wres.1 k = some v :=
        windowedScans_preserve env o addrs stakerList _ _ _ _ m k v wres h hw
      have hknot : k ∉ forcedIds.filter (fun id =>
          (gaugePositions.map Position.id).contains id ∧ dmHas wres.1 id = false) := by
        intro hmem
        have hp := (List.mem_filter.mp hmem).2
        have hp' := of_decide_eq_true hp
        have hfalse := hp'.2
        unfold dmHas at hfalse
        rw [h1] at hfalse
        simp at hfalse
      cases he : exactScans env o addrs stakerList
          (jsCoalesce (parseBlockParam req.startBlock)
            (parseBlockParam (if env.rpcStartBlock = "" then none else some env.rpcStartBlock)))
          ((parseBlockParam req.window).getD 50000)
          ((parseBlockParam req.maxLookback).getD 150000000)
          (forcedIds.filter (fun id =>
            (gaugePositions.map Position.id).contains id ∧ dmHas wres.1 id = false))
          wres.1 with
      | error e =>
        rw [he, exceptBind_error] at hr
        exact Except.noConfusion hr
      | ok eres =>
        rw [he, exceptBind_ok] at hr
        simp only [exceptPure, Except.ok.injEq] at hr
        have h2 : dmLookup eres.1 k = some v :=
          exactScans_preserve env o addrs stakerList _ _ _ k v _ hknot wres.1 eres h1 he
        rw [← hr]
        exact h2
  · split at hr
    · have hr' : Except.ok ((m, ["Set BASE_RPC_URL (and optional RPC_START_BLOCK) to enable depositor mapping when the subgraph lacks transfers."]) : DMap × List String) = Except.ok res := hr
      cases hr'
      exact h
    · have hr' : Except.ok ((m, []) : DMap × List String) = Except.ok res := hr
      cases hr'
      exact h

/-- Step 4Z's inserts are guarded, so it preserves existing bindings. -/
theorem assumeStep_preserve (req : Request) (addrs forcedIds : List String)
    (gaugePositions : List Position) (m : DMap) (k v : String)
    (h : dmLookup m k = some v) :
    dmLookup (assumeStep req addrs forcedIds gaugePositions m).1 k = some v := by
  simp only [assumeStep]
  split
  · refine foldl_preserve (fun st : DMap × Nat => dmLookup st.1 k = some v) _ forcedIds
      ?_ (m, 0) h
    intro b a hb
    split
    · rename_i hcond
      exact dmSet_guarded_preserve b.1 _ _ k v hb hcond.2
    · exact hb
  · exact h

/- ========= Claim C10 ========= -/

/-- C10: the tokenId → depositor map is write-once across the ordered
resolution strategies: a binding made by the stake-mapping stage (4A) is never
overwritten by the transfer-mapping stage (4B), the RPC log scans (4C) or the
caller-supplied assumption (4Z) — each later strategy only inserts tokenIds
not yet present. -/
theorem depositor_map_write_once (env : Env) (o : Oracle) (req : Request)
    (addrs forcedIds stakerList : List String) (gaugePositions : List Position)
    (k v : String) (res : DMap × List String)
    (hA : dmLookup (stakeStep o addrs).1 k = some v)
    (hres : depositorStep env o req addrs forcedIds stakerList gaugePositions
      = Except.ok res) :
    dmLookup res.1 k = some v := by
  simp only [depositorStep] at hres
  have hB : dmLookup (transferStep o (stakeStep o addrs).1 addrs stakerList).1 k = some v :=
    transferStep_preserve o _ addrs stakerList k v hA
  cases hc : rpcMapStep env o req addrs forcedIds stakerList gaugePositions
      (transferStep o (stakeStep o addrs).1 addrs stakerList).1 with
  | error e =>
    rw [hc, exceptBind_error] at hres
    exact Except.noConfusion hres
  | ok rc =>
    rw [hc, exceptBind_ok] at hres
    simp only [exceptPure, Except.ok.injEq] at hres
    have hC : dmLookup rc.1 k = some v :=
      rpcMapStep_preserve env o req addrs forcedIds stakerList gaugePositions _ k v rc hB hc
    have hZ : dmLookup (assumeStep req addrs forcedIds gaugePositions rc.1).1 k = some v :=
      assumeStep_preserve req addrs forcedIds gaugePositions rc.1 k v hC
    rw [← hres]
    exact hZ

/-- The stake-mapping response binding tokenId 5 to wallet 0xA. -/
def stakeDataFive : StakeData :=
  { stakedPositions := some [{ tokenId := some "5", user := some (OwnerField.obj (some "0xA")) }] }

/-- Oracle whose stake-mapping candidate binds tokenId 5 to wallet 0xA. -/
def oracleStake : Oracle :=
  { posByOwnerV1 := fun _ => Try.err "down"
    posByOwnerV2 := fun _ => Try.err "down"
    posByIds := fun _ => Try.err "down"
    stakersResps := []
    stakedResps := [Try.ok stakeDataFive]
    transferResps := []
    blockNumber := Except.error "down"
    getLogs := fun _ => Except.error "down"
    ethCall := fun _ _ => Except.error "down" }

/-- C10 witness: the binding 5 → 0xa made by stage 4A survives the full
depositor-resolution chain. -/
theorem depositor_map_write_once_witness :
    dmLookup (([("5", "0xa")], ["Stake mapping matched 1 tokenId(s)."]) :
      DMap × List String).1 "5" = some "0xa" :=
  depositor_map_write_once {} oracleStake {} ["0xa"] [] [] [] "5" "0xa"
    ([("5", "0xa")], ["Stake mapping matched 1 tokenId(s)."]) rfl rfl

/- ========= Claim C5 ========= -/

/-- The same oracle with `eth_getLogs` failures replaced by empty results. -/
def swallowLogErrors (o : Oracle) : Oracle :=
  { o with getLogs := fun f =>
      match o.getLogs f with
      | Except.error _ => Except.ok []
      | Except.ok logs => Except.ok logs }

/-- On one window, a failing log query contributes exactly what an empty
result would: nothing. -/
theorem swallow_found_eq (env : Env) (o : Oracle) (f : LogFilter) (found : List String) :
    (match rpcCall env (o.getLogs f) with
     | Except.ok logs => addLogTokenIds found logs
     | Except.error _ => found)
    = (match rpcCall env ((swallowLogErrors o).getLogs f) with
     | Except.ok logs => addLogTokenIds found logs
     | Except.error _ => found) := by
  unfold rpcCall swallowLogErrors
  dsimp only
  by_cases hurl : env.baseRpcUrl = ""
  · rw [if_pos hurl, if_pos hurl]
  · rw [if_neg hurl, if_neg hurl]
    cases o.getLogs f with
    | error e => rfl
    | ok logs => rfl

/-- Post-state of the windowed scan loop: it stops exactly at the start block,
the lookback budget, or 500 collected ids. -/
theorem scanLoop_post (env : Env) (o : Oracle) (wallet staker : String)
    (minStart window maxLookback : Int) (hw : 0 < window) :
    ∀ (n : Nat) (e scanned : Int) (found : List String),
      (maxLookback - scanned).toNat = n →
      ((scanLoop env o wallet staker minStart window maxLookback e scanned found).2.1 ≤ minStart
      ∨ maxLookback ≤ (scanLoop env o wallet staker minStart window maxLookback e scanned found).2.2
      ∨ 500 ≤ (scanLoop env o wallet staker minStart window maxLookback e scanned found).1.length) := by
  intro n
  induction n using Nat.strong_induction_on with
  | _ n ih =>
    intro e scanned found hn
    rw [scanLoop]
    split
    · rename_i hcond
      simp only []
      split
      · rename_i h500
        right
        right
        exact h500
      · rename_i h500
        exact ih ((maxLookback - (scanned + window)).toNat) (by omega) _ _ _ rfl
    · rename_i hcond
      simp only []
      omega

/-- The scan treats a failing window exactly as a window with no logs and
continues with the next window: swallowing all log errors does not change the
loop's result. -/
theorem scanLoop_swallow (env : Env) (o : Oracle) (wallet staker : String)
    (minStart window maxLookback : Int) (hw : 0 < window) :
    ∀ (n : Nat) (e scanned : Int) (found : List String),
      (maxLookback - scanned).toNat = n →
      scanLoop env o wallet staker minStart window maxLookback e scanned found
      = scanLoop env (swallowLogErrors o) wallet staker minStart window maxLookback
          e scanned found := by
  intro n
  induction n using Nat.strong_induction_on with
  | _ n ih =>
    intro e scanned found hn
    rw [scanLoop]
    conv_rhs => rw [scanLoop]
    by_cases hcond : 0 < window ∧ minStart < e ∧ scanned < maxLookback
    · rw [dif_pos hcond, dif_pos hcond]
      simp only []
      rw [← swallow_found_eq env o
        ⟨nfpmOf env,
         [some erc721TransferTopic, some (toTopicAddress wallet), some (toTopicAddress staker)],
         toHex (max minStart (e - window)), toHex e⟩ found]
      split
      · rfl
      · exact ih ((maxLookback - (scanned + window)).toNat) (by omega) _ _ _ rfl
    · rw [dif_neg hcond, dif_neg hcond]

/-- C5: for a positive window, the backward windowed log scan terminates
exactly when the remaining range hits the configured start block, when the
cumulative scanned span reaches the lookback budget, or when 500 matching
tokenIds have been collected — whichever comes first — and a window whose log
query fails is silently skipped (equivalent to an empty window), scanning
continuing with the next earlier window. -/
theorem scan_window_policy (env : Env) (o : Oracle) (wallet staker : String)
    (minStart window maxLookback e scanned : Int) (found : List String)
    (hw : 0 < window) :
    ((scanLoop env o wallet staker minStart window maxLookback e scanned found).2.1 ≤ minStart
     ∨ maxLookback ≤ (scanLoop env o wallet staker minStart window maxLookback e scanned found).2.2
     ∨ 500 ≤ (scanLoop env o wallet staker minStart window maxLookback e scanned found).1.length)
    ∧ scanLoop env o wallet staker minStart window maxLookback e scanned found
      = scanLoop env (swallowLogErrors o) wallet staker minStart window maxLookback
          e scanned found :=
  ⟨scanLoop_post env o wallet staker minStart window maxLookback hw _ e scanned found rfl,
   scanLoop_swallow env o wallet staker minStart window maxLookback hw _ e scanned found rfl⟩

/-- C5 witness: a concrete scan (head 7, window 5, lookback 10, RPC down). -/
theorem scan_window_policy_witness :
    (((scanLoop {} oracleNone "w" "s" 0 5 10 7 0 []).2.1 ≤ 0
     ∨ (10 : Int) ≤ (scanLoop {} oracleNone "w" "s" 0 5 10 7 0 []).2.2
     ∨ 500 ≤ (scanLoop {} oracleNone "w" "s" 0 5 10 7 0 []).1.length)
    ∧ scanLoop {} oracleNone "w" "s" 0 5 10 7 0 []
      = scanLoop {} (swallowLogErrors oracleNone) "w" "s" 0 5 10 7 0 []) :=
  scan_window_policy {} oracleNone "w" "s" 0 5 10 7 0 [] (by decide)

/- ========= Emit-stage lemmas (claim C3) ========= -/

/-- `List.contains` agrees with membership for strings. -/
theorem containsIffMem {l : List String} {a : String} : l.contains a = true ↔ a ∈ l := by
  simp

/-- Membership survives the order-preserving dedup fold. -/
theorem mem_foldl_setAdd (l : List String) (x : String) :
    ∀ init : List String, (x ∈ l ∨ x ∈ init) → x ∈ l.foldl setAdd init := by
  induction l with
  | nil =>
    intro init h
    rcases h with h | h
    · exact absurd h (List.not_mem_nil x)
    · simpa using h
  | cons a rest ih =>
    intro init h
    rw [List.foldl_cons]
    apply ih
    rcases h with h | h
    · rcases List.mem_cons.mp h with h | h
      · subst h
        right
        unfold setAdd
        split
        · exact containsIffMem.mp (by assumption)
        · simp
      · left
        exact h
    · right
      unfold setAdd
      split
      · exact h
      · exact List.mem_append_left _ h

/-- A gauge-owned tokenId attributed to a queried wallet is selected for
rehydration. -/
theorem mem_yourStakedIds (addrs : List String) (gaugePositions : List Position)
    (m : DMap) (tid w : String) (hg : tid ∈ gaugePositions.map Position.id)
    (hl : dmLookup m tid = some w) (hw : w ∈ addrs) :
    tid ∈ yourStakedIdsOf addrs gaugePositions m := by
  unfold yourStakedIdsOf
  apply mem_foldl_setAdd
  left
  apply List.mem_filter.mpr
  refine ⟨hg, ?_⟩
  rw [hl]
  exact containsIffMem.mpr hw

/-- Rows already collected survive the rest of the emit loop. -/
theorem emitLoop_rows_mono (mk : Position → Row) :
    ∀ (ps : List Position) (seen : List String) (rows : List Row) (r : Row),
      r ∈ rows → r ∈ (emitLoop mk seen rows ps).1 := by
  intro ps
  induction ps with
  | nil =>
    intro seen rows r h
    simpa [emitLoop] using h
  | cons p rest ih =>
    intro seen rows r h
    simp only [emitLoop]
    split
    · exact ih _ _ _ h
    · exact ih _ _ _ (List.mem_append_left _ h)

/-- Ids in the final `seen` set come from the initial set or the emitted
positions. -/
theorem emitLoop_seen_sub (mk : Position → Row) :
    ∀ (ps : List Position) (seen : List String) (rows : List Row) (x : String),
      x ∈ (emitLoop mk seen rows ps).2 → x ∈ seen ∨ x ∈ ps.map Position.id := by
  intro ps
  induction ps with
  | nil =>
    intro seen rows x h
    left
    simpa [emitLoop] using h
  | cons p rest ih =>
    intro seen rows x h
    simp only [emitLoop] at h
    split at h
    · rcases ih _ _ _ h with h' | h'
      · exact Or.inl h'
      · exact Or.inr (List.mem_cons_of_mem _ h')
    · rcases ih _ _ _ h with h' | h'
      · rcases List.mem_append.mp h' with h'' | h''
        · exact Or.inl h''
        · rcases List.mem_singleton.mp h'' with rfl
          exact Or.inr (by simp)
      · exact Or.inr (List.mem_cons_of_mem _ h')

/-- If some emitted position carries the id and the id is not yet seen, the
loop emits a row for it (built from the first such position). -/
theorem emitLoop_mem (mk : Position → Row) (tid : String) :
    ∀ (ps : List Position) (seen : List String) (rows : List Row),
      tid ∉ seen → (∃ p ∈ ps, p.id = tid) →
      ∃ p, p.id = tid ∧ mk p ∈ (emitLoop mk seen rows ps).1 := by
  intro ps
  induction ps with
  | nil =>
    rintro seen rows hs ⟨p, hp, _⟩
    exact absurd hp (List.not_mem_nil p)
  | cons q rest ih =>
    rintro seen rows hs ⟨p, hp, hpid⟩
    simp only [emitLoop]
    split
    · rename_i hseen
      rcases List.mem_cons.mp hp with h | h
      · subst h
        exact absurd (hpid ▸ containsIffMem.mp hseen) hs
      · exact ih seen rows hs ⟨p, h, hpid⟩
    · rename_i hseen
      by_cases hq : q.id = tid
      · exact ⟨q, hq, emitLoop_rows_mono mk rest _ _ _ (by simp)⟩
      · rcases List.mem_cons.mp hp with h | h
        · subst h
          exact absurd hpid hq
        · refine ih _ _ ?_ ⟨p, h, hpid⟩
          intro hmem
          rcases List.mem_append.mp hmem with h' | h'
          · exact hs h'
          · exact hq (List.mem_singleton.mp h').symm

/-- Enrichment never changes a row's owner, staked flag or tokenId. -/
theorem enrichRow_preserves (env : Env) (o : Oracle) (row : Row) :
    (enrichRow env o row).owner = row.owner
    ∧ (enrichRow env o row).staked = row.staked
    ∧ (enrichRow env o row).tokenId = row.tokenId := by
  unfold enrichRow
  by_cases hf : needFeesOf row = true
  · rw [if_pos hf]
    cases hm : nfpmPositions env o row.tokenId with
    | ok owed =>
      dsimp only
      split
      · split
        · exact ⟨rfl, rfl, rfl⟩
        · exact ⟨rfl, rfl, rfl⟩
      · exact ⟨rfl, rfl, rfl⟩
    | error e =>
      dsimp only
      split
      · split
        · exact ⟨rfl, rfl, rfl⟩
        · exact ⟨rfl, rfl, rfl⟩
      · exact ⟨rfl, rfl, rfl⟩
  · rw [if_neg hf]
    dsimp only
    split
    · split
      · exact ⟨rfl, rfl, rfl⟩
      · exact ⟨rfl, rfl, rfl⟩
    · exact ⟨rfl, rfl, rfl⟩

/-- Shape of a successful main-branch run of the body: the emitted items are
the (possibly enriched) rows of the emit stage. -/
theorem GETbody_items_main (env : Env) (o : Oracle) (req : Request)
    (res : DMap × List String)
    (hane : (addrsOf req).isEmpty = false)
    (hurl : ¬env.aeroSlipstreamSubgraph = "")
    (hdep : depositorStep env o req (addrsOf req) (forcedIdsOf req) (discoverStakers env o)
      (forcedStep o (forcedIdsOf req) (discoverStakers env o)
        (gaugeStep o (discoverStakers env o)).1).1 = Except.ok res) :
    ∃ r, GETbody env o req = Except.ok r ∧
      r.items =
        (if env.baseRpcUrl ≠ "" ∧
            ¬(emitRows (walletStep o (addrsOf req)).1
              (rehydrateStep o (yourStakedIdsOf (addrsOf req)
                (forcedStep o (forcedIdsOf req) (discoverStakers env o)
                  (gaugeStep o (discoverStakers env o)).1).1 res.1)).1 res.1).isEmpty = true
         then (emitRows (walletStep o (addrsOf req)).1
              (rehydrateStep o (yourStakedIdsOf (addrsOf req)
                (forcedStep o (forcedIdsOf req) (discoverStakers env o)
                  (gaugeStep o (discoverStakers env o)).1).1 res.1)).1 res.1).map
              (enrichRow env o)
         else emitRows (walletStep o (addrsOf req)).1
              (rehydrateStep o (yourStakedIdsOf (addrsOf req)
                (forcedStep o (forcedIdsOf req) (discoverStakers env o)
                  (gaugeStep o (discoverStakers env o)).1).1 res.1)).1 res.1) := by
  simp only [GETbody]
  rw [if_neg (by simp [hane]), if_neg hurl, hdep]
  refine ⟨_, rfl, ?_⟩
  by_cases hC1 : env.baseRpcUrl ≠ "" ∧
      ¬(emitRows (walletStep o (addrsOf req)).1
        (rehydrateStep o (yourStakedIdsOf (addrsOf req)
          (forcedStep o (forcedIdsOf req) (discoverStakers env o)
            (gaugeStep o (discoverStakers env o)).1).1 res.1)).1 res.1).isEmpty = true
  · rw [if_pos hC1, if_pos hC1]
  · rw [if_neg hC1, if_neg hC1]
    by_cases hC2 : env.baseRpcUrl = ""
    · rw [if_pos hC2]
    · rw [if_neg hC2]

/- ========= Claim C3 ========= -/

/-- C3: when a position is owned by a discovered staking contract (it appears
among the gauge-owned positions), the depositor-resolution chain maps its
tokenId to one of the queried wallets, the rehydration query returns the
position, and the tokenId is not among the wallet-owned rows, then the
response's items contain a row for that tokenId with `staked = true` and
`owner` equal to the attributed wallet address. -/
theorem staked_row_attributed (env : Env) (o : Oracle) (req : Request)
    (w tid : String) (p : Position) (res : DMap × List String) (pd : PosData)
    (hurl : env.aeroSlipstreamSubgraph ≠ "")
    (hw : w ∈ addrsOf req)
    (hdep : depositorStep env o req (addrsOf req) (forcedIdsOf req) (discoverStakers env o)
      (forcedStep o (forcedIdsOf req) (discoverStakers env o)
        (gaugeStep o (discoverStakers env o)).1).1 = Except.ok res)
    (hlook : dmLookup res.1 tid = some w)
    (hgauge : tid ∈ (forcedStep o (forcedIdsOf req) (discoverStakers env o)
        (gaugeStep o (discoverStakers env o)).1).1.map Position.id)
    (hre : o.posByIds (yourStakedIdsOf (addrsOf req)
        (forcedStep o (forcedIdsOf req) (discoverStakers env o)
          (gaugeStep o (discoverStakers env o)).1).1 res.1) = Try.ok pd)
    (hp : p ∈ pd.positions.getD []) (hpid : p.id = tid)
    (hnw : tid ∉ (walletStep o (addrsOf req)).1.map Position.id) :
    ∃ row ∈ (positionsGET env o req).items,
      row.tokenId = tid ∧ row.staked = true ∧ row.owner = some w := by
  have hane : (addrsOf req).isEmpty = false := by
    cases h : addrsOf req with
    | nil =>
      rw [h] at hw
      exact absurd hw (List.not_mem_nil w)
    | cons a l => rfl
  have hwne : w ≠ "" := by
    have hw' : w ∈ (req.addresses.map jsToLower).filter (fun a => a ≠ "") := hw
    exact of_decide_eq_true (List.mem_filter.mp hw').2
  have htid_in : tid ∈ yourStakedIdsOf (addrsOf req)
      (forcedStep o (forcedIdsOf req) (discoverStakers env o)
        (gaugeStep o (discoverStakers env o)).1).1 res.1 :=
    mem_yourStakedIds (addrsOf req) _ res.1 tid w hgauge hlook hw
  have hYIne : (yourStakedIdsOf (addrsOf req)
      (forcedStep o (forcedIdsOf req) (discoverStakers env o)
        (gaugeStep o (discoverStakers env o)).1).1 res.1).isEmpty = false := by
    cases h : yourStakedIdsOf (addrsOf req)
        (forcedStep o (forcedIdsOf req) (discoverStakers env o)
          (gaugeStep o (discoverStakers env o)).1).1 res.1 with
    | nil =>
      rw [h] at htid_in
      exact absurd htid_in (List.not_mem_nil tid)
    | cons a l => rfl
  have hreh : (rehydrateStep o (yourStakedIdsOf (addrsOf req)
      (forcedStep o (forcedIdsOf req) (discoverStakers env o)
        (gaugeStep o (discoverStakers env o)).1).1 res.1)).1 = pd.positions.getD [] := by
    unfold rehydrateStep
    rw [if_neg (by simp [hYIne]), hre]
  have hseen_not : tid ∉ (emitLoop walletRow [] []
      (walletStep o (addrsOf req)).1).2 := by
    intro hmem
    rcases emitLoop_seen_sub walletRow (walletStep o (addrsOf req)).1 [] [] tid hmem with
      h | h
    · exact absurd h (List.not_mem_nil tid)
    · exact hnw h
  obtain ⟨p0, hp0id, hp0mem⟩ :=
    emitLoop_mem (stakedRow res.1) tid
      (rehydrateStep o (yourStakedIdsOf (addrsOf req)
        (forcedStep o (forcedIdsOf req) (discoverStakers env o)
          (gaugeStep o (discoverStakers env o)).1).1 res.1)).1
      (emitLoop walletRow [] [] (walletStep o (addrsOf req)).1).2
      (emitLoop walletRow [] [] (walletStep o (addrsOf req)).1).1
      hseen_not ⟨p, by rw [hreh]; exact hp, hpid⟩
  have hrowmem : stakedRow res.1 p0 ∈ emitRows (walletStep o (addrsOf req)).1
      (rehydrateStep o (yourStakedIdsOf (addrsOf req)
        (forcedStep o (forcedIdsOf req) (discoverStakers env o)
          (gaugeStep o (discoverStakers env o)).1).1 res.1)).1 res.1 := hp0mem
  have howner : (stakedRow res.1 p0).owner = some w := by
    show (match dmLookup res.1 p0.id with
      | some d => if d = "" then ownerRawOf p0.owner else some d
      | none => ownerRawOf p0.owner) = some w
    rw [hp0id, hlook]
    simp [hwne]
  obtain ⟨r, hbody, hitems⟩ := GETbody_items_main env o req res hane hurl hdep
  have hitems' : (positionsGET env o req).items = r.items := by
    unfold positionsGET
    rw [hbody]
  rw [hitems', hitems]
  by_cases hC1 : env.baseRpcUrl ≠ "" ∧
      ¬(emitRows (walletStep o (addrsOf req)).1
        (rehydrateStep o (yourStakedIdsOf (addrsOf req)
          (forcedStep o (forcedIdsOf req) (discoverStakers env o)
            (gaugeStep o (discoverStakers env o)).1).1 res.1)).1 res.1).isEmpty = true
  · rw [if_pos hC1]
    refine ⟨enrichRow env o (stakedRow res.1 p0), List.mem_map_of_mem _ hrowmem, ?_, ?_, ?_⟩
    · rw [(enrichRow_preserves env o _).2.2]
      show p0.id = tid
      exact hp0id
    · rw [(enrichRow_preserves env o _).2.1]
      rfl
    · rw [(enrichRow_preserves env o _).1]
      exact howner
  · rw [if_neg hC1]
    exact ⟨stakedRow res.1 p0, hrowmem, hp0id, rfl, howner⟩

/-- Environment for the C3 witness run: indexer configured, one env staker,
no RPC. -/
def envStaked : Env := { aeroSlipstreamSubgraph := "u", slipstreamStakers := "0xgauge" }

/-- The stake-mapping response binding tokenId 7 to wallet 0xME. -/
def stakeDataSeven : StakeData :=
  { stakedPositions := some [{ tokenId := some "7", user := some (OwnerField.obj (some "0xME")) }] }

/-- Oracle for the C3 witness run: the wallet owns nothing, the gauge owns
position 7, and the stake mapping attributes tokenId 7 to wallet 0xME. -/
def oracleStaked : Oracle :=
  { posByOwnerV1 := fun owners =>
      if owners = ["0xme"] then Try.ok { positions := some [] }
      else Try.ok { positions := some [posGauge] }
    posByOwnerV2 := fun _ => Try.err "down"
    posByIds := fun _ => Try.ok { positions := some [posGauge] }
    stakersResps := []
    stakedResps := [Try.ok stakeDataSeven]
    transferResps := []
    blockNumber := Except.error "down"
    getLogs := fun _ => Except.error "down"
    ethCall := fun _ _ => Except.error "down" }

/-- C3 witness: on the concrete staked scenario the response contains the row
for tokenId 7 with staked = true and owner 0xme (the wallet, not the gauge). -/
theorem staked_row_attributed_witness :
    ∃ row ∈ (positionsGET envStaked oracleStaked { addresses := ["0xME"] }).items,
      row.tokenId = "7" ∧ row.staked = true ∧ row.owner = some "0xme" :=
  staked_row_attributed envStaked oracleStaked { addresses := ["0xME"] }
    "0xme" "7" posGauge
    ([("7", "0xme")],
     ["Stake mapping matched 1 tokenId(s).",
      "Set BASE_RPC_URL (and optional RPC_START_BLOCK) to enable depositor mapping when the subgraph lacks transfers."])
    { positions := some [posGauge] }
    (by decide) (by decide) rfl rfl (by decide) rfl (by simp [posGauge]) rfl (by decide)
